import Mathlib

/-!
Shallow embedding of the job-orchestration core of the TradingAgents web server
(`server/job_manager.py`, `server/web_app.py`, `server/schemas.py`).

Modelling conventions:
* Python strings are `String`; `str.strip()` is `String.pyStrip`; `str.lower()` is
  `String.toLower`; Python `len` on a string is `String.length` (code points).
* Wall-clock timestamps (`created_at`, `updated_at`, event `timestamp`,
  archive-directory timestamps) are not modelled: no claim depends on them; the
  archive directory name is passed in as an opaque string parameter.
* The thread pool and lock are not modelled; a single job's run is the
  sequential loop of `JobManager._run_job`, which is the only writer of its
  record (the lock only serialises reader access).
* The pipeline (`graph.graph.stream(...)`) is modelled as a finite list of
  items, each either a yielded snapshot (`Except.ok chunk`) or a raised
  exception with its message (`Except.error msg`), which terminates iteration.
* The live report directory's writes are logged as an ordered list of
  (file name, content) pairs; the model has no delete operation, matching the
  source, which never removes files.
-/

/-- A Python value that can appear in a pipeline snapshot dict: a string, the
value `None`, a list, a nested dict, or some other object (modelled by its
`str(...)` rendering, assumed truthy). -/
inductive ChunkValue where
  | str (s : String)
  | vnone
  | vlist (items : List ChunkValue)
  | vdict (entries : List (String × ChunkValue))
  | other (repr : String)

/-- Model of Python `str.strip()`: drop whitespace characters from both ends.
Defined structurally over the character list so that it evaluates inside the
kernel (`String.pyStrip` does not reduce definitionally). -/
def String.pyStrip (s : String) : String :=
  String.mk (((s.data.dropWhile Char.isWhitespace).reverse.dropWhile
    Char.isWhitespace).reverse)

/-- Model of Python `str.lower()`, structurally over the character list. -/
def String.pyLower (s : String) : String :=
  String.mk (s.data.map Char.toLower)

/-- Model of Python `c in s` for a single character, structurally. -/
def String.pyContains (s : String) (c : Char) : Bool :=
  s.data.contains c

/-- `"\n".join([p for p in parts if p])` from `_message_to_text` / `_coerce_text`. -/
def joinNonempty (parts : List String) : String :=
  "\n".intercalate (parts.filter (fun p => p ≠ ""))

/-- `value.get("text")` followed by the `isinstance(text, str)` check in
`_coerce_text`: the first `"text"` entry, if it holds a string. -/
def lookupTextField : List (String × ChunkValue) → Option String
  | [] => none
  | (k, v) :: rest =>
      if k = "text" then (match v with | .str t => some t | _ => none)
      else lookupTextField rest

mutual

/-- Model of `_coerce_text` (job_manager.py lines 61-78): best-effort
conversion of structured content into plain text. -/
def coerceTextV : ChunkValue → String
  | .str s => s
  | .vnone => ""
  | .other r => r
  | .vlist items => (joinNonempty (coerceTextL items)).pyStrip
  | .vdict entries =>
      match lookupTextField entries with
      | some t => t
      | none =>
          match coerceContentField entries with
          | some s => s
          | none => jsonDumpsV (.vdict entries)

def coerceTextL : List ChunkValue → List String
  | [] => []
  | v :: rest => coerceTextV v :: coerceTextL rest

/-- `content = value.get("content"); if content is not None: return
_coerce_text(content)`: first `"content"` entry, coerced, unless it is `None`. -/
def coerceContentField : List (String × ChunkValue) → Option String
  | [] => none
  | (k, v) :: rest =>
      if k = "content" then
        (match v with | .vnone => none | w => some (coerceTextV w))
      else coerceContentField rest

/-- Model of `json.dumps(value)` in the fallback branch of `_coerce_text`
(exact escaping is abstracted; the result is a non-empty JSON-like string). -/
def jsonDumpsV : ChunkValue → String
  | .str s => "\"" ++ s ++ "\""
  | .vnone => "null"
  | .other r => r
  | .vlist items => "[" ++ ", ".intercalate (jsonDumpsL items) ++ "]"
  | .vdict entries => "\x7b" ++ ", ".intercalate (jsonDumpsD entries) ++ "\x7d"

def jsonDumpsL : List ChunkValue → List String
  | [] => []
  | v :: rest => jsonDumpsV v :: jsonDumpsL rest

def jsonDumpsD : List (String × ChunkValue) → List String
  | [] => []
  | (k, v) :: rest => ("\"" ++ k ++ "\": " ++ jsonDumpsV v) :: jsonDumpsD rest

end

/-- `_coerce_text(mapping.get(key, ""))`: an absent key coerces to `""`. -/
def coerceText : Option ChunkValue → String
  | none => ""
  | some v => coerceTextV v

/-- `content[-2000:]`: the last `n` characters (code points) of a string. -/
def strTakeRight (n : Nat) (s : String) : String :=
  String.mk (s.data.drop (s.data.length - n))

/-- Index of the last `'.'` in a character list (CPython `name.rfind('.')`). -/
def lastDotIndex (cs : List Char) : Option Nat :=
  ((List.range cs.length).filter (fun i => cs.getD i ' ' = '.')).getLast?

/-- Model of `pathlib.PurePath.suffix` on a single path component:
the substring from the last dot, provided that dot is neither the first nor
the last character; otherwise `""`. -/
def pathSuffix (name : String) : String :=
  let cs := name.data
  match lastDotIndex cs with
  | some i => if 0 < i ∧ i + 1 < cs.length then String.mk (cs.drop i) else ""
  | none => ""

/-- `path.suffix.lower()` on a single path component. -/
def suffixLower (name : String) : String := (pathSuffix name).pyLower

/-- `"/" in name or "\\" in name`: the path-separator test of the report and
artifact fetch endpoints. -/
def hasPathSep (s : String) : Bool := s.pyContains '/' || s.pyContains '\\'

/-- Python truthiness of an optional string (`if error:`): `some e` survives
only when `e` is non-empty. -/
def truthyStr : Option String → Option String
  | some e => if e = "" then none else some e
  | none => none

/-- `payload.end_date or payload.analysis_date`: Python `or` falls through on
`None` and on the empty string. -/
def orElseStr (o : Option String) (dflt : String) : String :=
  match o with
  | some s => if s = "" then dflt else s
  | none => dflt

/-- `sorted(...)` on a list of strings. -/
def sortStrings (l : List String) : List String := l.insertionSort (· ≤ ·)

/-- The set of names present in a directory after a sequence of (possibly
overwriting) file creations: each name once, in sorted order, as
`sorted(report_dir.glob("*"))` observes it. -/
def dirListing (names : List String) : List String := sortStrings names.dedup

/-- Model of `server/schemas.py` `JobCreateRequest` (pydantic request body).
Enumerated literal types are modelled as strings. -/
structure JobCreateRequest where
  ticker : String
  analysis_date : String
  timeframe : String
  start_date : Option String
  end_date : Option String
  analysts : List String
  selected_masters : List String
  llm_provider : String
  backend_url : Option String
  quick_think_llm : Option String
  deep_think_llm : Option String
  max_debate_rounds : Nat
  max_risk_discuss_rounds : Nat
deriving DecidableEq

/-- The type-specific `data` payload of an event, one constructor per event
type appended by `job_manager.py`. -/
inductive EventData where
  | statusData (status : String) (error : Option String)
  | messageData (agent : Option String) (content : String)
  | reportReadyData (report_key : String) (length : Nat)
  | completedData (report_dir : String) (reports : List String)
      (artifacts : List String) (archive_dir : String)
      (archive_files : List String) (llm_calls tool_calls tokens_in tokens_out : Nat)
      (decision : Option ChunkValue)
  | errorData (message : String)

/-- One event-log entry (`JobRecord.append_event` payload); the wall-clock
`timestamp` field is not modelled. -/
structure Event where
  seq : Nat
  type : String
  data : EventData

/-- Model of the `JobRecord` dataclass (job_manager.py lines 81-110); the
`created_at` / `updated_at` wall-clock fields are not modelled. -/
structure JobRecord where
  job_id : String
  payload : JobCreateRequest
  status : String
  error : Option String
  reports : List String
  artifacts : List String
  archive_dir : Option String
  archive_files : List String
  llm_calls : Nat
  tool_calls : Nat
  tokens_in : Nat
  tokens_out : Nat
  events : List Event
  event_seq : Nat

/-- A `JobRecord(job_id=..., payload=...)` with every defaulted field. -/
def JobRecord.initial (job_id : String) (payload : JobCreateRequest) : JobRecord :=
  { job_id := job_id, payload := payload, status := "queued", error := none,
    reports := [], artifacts := [], archive_dir := none, archive_files := [],
    llm_calls := 0, tool_calls := 0, tokens_in := 0, tokens_out := 0,
    events := [], event_seq := 0 }

/-- `JobRecord.append_event`: bump `event_seq`, append the entry carrying the
new sequence number. -/
def JobRecord.append_event (r : JobRecord) (event_type : String) (data : EventData) : JobRecord :=
  let seq := r.event_seq + 1
  { r with event_seq := seq,
           events := r.events ++ [{ seq := seq, type := event_type, data := data }] }

/-- Model of the `JobManager` state: the `_jobs` dict and the FIFO queue of
run tasks submitted to the `ThreadPoolExecutor`. -/
structure JobManager where
  jobs : String → Option JobRecord
  tasks : List String

/-- The record constructed and pre-populated by `JobManager.create_job` before
registration: `JobRecord(...)` plus the initial `status` event. -/
def newJobRecord (job_id : String) (payload : JobCreateRequest) : JobRecord :=
  (JobRecord.initial job_id payload).append_event "status" (.statusData "queued" none)

/-- `JobManager.create_job`: build the record, append the initial `queued`
status event, register it, submit the run task, return the record.  The
generated `uuid4` identifier is passed in as `job_id`. -/
def JobManager.create_job (m : JobManager) (job_id : String)
    (payload : JobCreateRequest) : JobManager × JobRecord :=
  let record := newJobRecord job_id payload
  ({ jobs := fun j => if j = job_id then some record else m.jobs j,
     tasks := m.tasks ++ [job_id] }, record)

/-- `JobManager.get_job`. -/
def JobManager.get_job (m : JobManager) (job_id : String) : Option JobRecord :=
  m.jobs job_id

/-- `JobManager.list_events_since`: `[]` for an unknown job, otherwise the
events with `seq > after_seq`. -/
def JobManager.list_events_since (m : JobManager) (job_id : String)
    (after_seq : Nat) : List Event :=
  match m.jobs job_id with
  | none => []
  | some job => job.events.filter (fun e => after_seq < e.seq)

/-- `JobManager._update_status`: set the status field, set the error field
only when `error` is truthy, and append a `status` event whose payload carries
the error text only when truthy. -/
def JobManager.update_status (record : JobRecord) (status : String)
    (error : Option String) : JobRecord :=
  let r := { record with status := status }
  let r := match truthyStr error with
           | some e => { r with error := some e }
           | none => r
  r.append_event "status" (.statusData status (truthyStr error))

/-- A point-in-time read of `stats_handler.get_stats()` (cumulative usage
counters), as observed at one loop iteration. -/
structure Stats where
  llm_calls : Nat
  tool_calls : Nat
  tokens_in : Nat
  tokens_out : Nat
deriving DecidableEq

/-- One entry of a chunk's `messages` list.  `isBaseMessage` models the
`isinstance(last_message, BaseMessage)` test; `text` is the
`_message_to_text` rendering of the message content. -/
structure Message where
  isBaseMessage : Bool
  name : Option String
  text : String
deriving DecidableEq

/-- One snapshot yielded by `graph.graph.stream(...)`: the named report
values, the `messages` list, and the stats-handler reading taken during this
iteration. -/
structure Chunk where
  entries : List (String × ChunkValue)
  messages : List Message
  stats : Stats

/-- `chunk.get(key)`. -/
def Chunk.get (c : Chunk) (k : String) : Option ChunkValue :=
  c.entries.lookup k

/-- The initial `final_state = {}`. -/
def emptyChunk : Chunk :=
  { entries := [], messages := [], stats := { llm_calls := 0, tool_calls := 0, tokens_in := 0, tokens_out := 0 } }

/-- The `REPORT_FILES` mapping (job_manager.py lines 19-28), in source order. -/
def REPORT_FILES : List (String × String) :=
  [("market_report", "market_report.md"),
   ("sentiment_report", "sentiment_report.md"),
   ("news_report", "news_report.md"),
   ("fundamentals_report", "fundamentals_report.md"),
   ("quant_report", "quant_report.md"),
   ("investment_plan", "investment_plan.md"),
   ("trader_investment_plan", "trader_investment_plan.md"),
   ("final_trade_decision", "final_trade_decision.md")]

/-- The in-flight state of one `_run_job` execution: the job record, the
`previous_reports` dict (total over keys, defaulting to `""`), and the log of
writes made to the live report directory, in order. -/
structure RunState where
  record : JobRecord
  prev : String → String
  writes : List (String × String)

/-- The `messages` block of the per-chunk loop body (lines 202-214): if the
chunk carries messages and the last one is a `BaseMessage` with non-empty
text, append a `message` event with the text truncated to its last 2000
characters. -/
def processMessages (r : JobRecord) (c : Chunk) : JobRecord :=
  match c.messages.getLast? with
  | none => r
  | some m =>
      if m.isBaseMessage then
        if m.text ≠ "" then
          r.append_event "message" (.messageData m.name (strTakeRight 2000 m.text))
        else r
      else r

/-- One iteration of the `for report_key in REPORT_FILES.keys()` loop (lines
216-231): when the chunk holds a non-blank string for the key that differs
from the last-seen value, record it, write the live file, add the file name to
`reports` if new (re-sorting), and append a `report_ready` event. -/
def processReportKey (c : Chunk) (st : RunState) (kv : String × String) : RunState :=
  match c.get kv.1 with
  | some (.str v) =>
      if v.pyStrip ≠ "" then
        if st.prev kv.1 ≠ v then
          let record := st.record
          let record :=
            if kv.2 ∈ record.reports then record
            else { record with reports := (record.reports ++ [kv.2]).insertionSort (· ≤ ·) }
          let record := record.append_event "report_ready" (.reportReadyData kv.1 v.length)
          { record := record,
            prev := fun k => if k = kv.1 then v else st.prev k,
            writes := st.writes ++ [(kv.2, v)] }
        else st
      else st
  | _ => st

/-- The whole per-chunk loop body (lines 196-231): refresh counters from the
stats reading, maybe append a `message` event, then diff every report key. -/
def processChunk (st : RunState) (c : Chunk) : RunState :=
  let record := { st.record with
    llm_calls := c.stats.llm_calls, tool_calls := c.stats.tool_calls,
    tokens_in := c.stats.tokens_in, tokens_out := c.stats.tokens_out }
  let record := processMessages record c
  REPORT_FILES.foldl (processReportKey c) { st with record := record }

/-- The `for chunk in graph.graph.stream(...)` loop: consume snapshot items in
order, remembering the last chunk as `final_state`; a raised exception stops
iteration and is reported as `some message`, leaving the remaining items
unconsumed. -/
def runLoop : RunState → Chunk → List (Except String Chunk) → RunState × Chunk × Option String
  | st, final_state, [] => (st, final_state, none)
  | st, final_state, (.error msg) :: _ => (st, final_state, some msg)
  | st, _, (.ok c) :: rest => runLoop (processChunk st c) c rest

/-- Model of `JobManager._write_reports`: the files written into the (already
existing) report directory — one per report key with non-blank coerced
content. -/
def write_reports (final_state : Chunk) : List (String × String) :=
  REPORT_FILES.filterMap (fun kv =>
    let content := coerceText (final_state.get kv.1)
    if content.pyStrip ≠ "" then some (kv.2, content) else none)

/-- The `analyst_map` of `_write_archive` (lines 310-316). -/
def analystMap : List (String × String × String) :=
  [("Market Analyst", "market_report", "market.md"),
   ("Social Analyst", "sentiment_report", "sentiment.md"),
   ("News Analyst", "news_report", "news.md"),
   ("Fundamentals Analyst", "fundamentals_report", "fundamentals.md"),
   ("Quant Analyst", "quant_report", "quant.md")]

/-- The research-section entries of `_write_archive` (lines 332-336). -/
def researchMap : List (String × String × String) :=
  [("Bull Researcher", "bull_history", "bull.md"),
   ("Bear Researcher", "bear_history", "bear.md"),
   ("Research Manager", "judge_decision", "manager.md")]

/-- The risk-section entries of `_write_archive` (lines 359-363). -/
def riskMap : List (String × String × String) :=
  [("Aggressive Analyst", "aggressive_history", "aggressive.md"),
   ("Conservative Analyst", "conservative_history", "conservative.md"),
   ("Neutral Analyst", "neutral_history", "neutral.md")]

/-- One section loop of `_write_archive`: for each `(title, key, file_name)`
entry whose coerced content is non-blank, write `dir/file_name` and collect a
`(title, content)` part.  Returns (file writes, parts). -/
def sectionEntries (get : String → Option ChunkValue) (dir : String)
    (entries : List (String × String × String)) :
    List (String × String) × List (String × String) :=
  entries.foldl (fun acc e =>
    let content := coerceText (get e.2.1)
    if content.pyStrip ≠ "" then
      (acc.1 ++ [(dir ++ "/" ++ e.2.2, content)], acc.2 ++ [(e.1, content)])
    else acc) ([], [])

/-- `"\n\n".join([f"### (name)\n(text)" for name, text in parts])`. -/
def sectionBody (parts : List (String × String)) : String :=
  "\n\n".intercalate (parts.map (fun p => "### " ++ p.1 ++ "\n" ++ p.2))

/-- `final_state.get(key, {}) or {}` followed by `isinstance(..., dict)`:
yields the dict entries when the value is a dict, the empty dict when the
value is absent or falsy, and `none` (section skipped) when the value is a
truthy non-dict. -/
def getDictOr : Option ChunkValue → Option (List (String × ChunkValue))
  | none => some []
  | some .vnone => some []
  | some (.str s) => if s = "" then some [] else none
  | some (.vlist []) => some []
  | some (.vlist (_ :: _)) => none
  | some (.vdict d) => some d
  | some (.other _) => none

/-- `debate_state.get(key, "")` on a nested dict. -/
def dictGet (d : List (String × ChunkValue)) : String → Option ChunkValue :=
  fun k => d.lookup k

/-- The observable effects of `JobManager._write_archive`: the section files
written (relative path, text content), the artifact files copied into
`6_artifacts/`, the subdirectories created, the section blocks included in the
summary, and the text of the top-level `complete_report.md`. -/
structure ArchiveResult where
  sectionWrites : List (String × String)
  artifactCopies : List String
  dirs : List String
  sections : List String
  summary : String

/-- Model of `JobManager._write_archive` (lines 292-398).  `generated` stands
for the wall-clock generation timestamp; `reportDirNames` is the directory
listing of the result report directory at copy time.  Each numbered section
contributes its file writes, its created subdirectory and its summary block
only when populated, in source order; a section whose debate state is not a
dict, or whose keys are all blank, contributes nothing. -/
def write_archive (ticker trade_date generated : String) (final_state : Chunk)
    (reportDirNames : List String) : ArchiveResult :=
  let a := sectionEntries final_state.get "1_analysts" analystMap
  let research :=
    match getDictOr (final_state.get "investment_debate_state") with
    | none => (([] : List (String × String)), ([] : List (String × String)))
    | some d => sectionEntries (dictGet d) "2_research" researchMap
  let trader_plan := coerceText (final_state.get "trader_investment_plan")
  let risk :=
    match getDictOr (final_state.get "risk_debate_state") with
    | none => (([] : List (String × String)), ([] : List (String × String)))
    | some d => sectionEntries (dictGet d) "4_risk" riskMap
  let judge :=
    match getDictOr (final_state.get "risk_debate_state") with
    | none => ""
    | some d => coerceText (dictGet d "judge_decision")
  let copies := (reportDirNames.filter
      (fun n => suffixLower n == ".png" || suffixLower n == ".csv")).map
      (fun n => "6_artifacts/" ++ n)
  let sections :=
    (if a.2.isEmpty then [] else
      ["## I. Analyst Team Reports\n\n" ++ sectionBody a.2]) ++
    (if research.2.isEmpty then [] else
      ["## II. Research Team Decision\n\n" ++ sectionBody research.2]) ++
    (if trader_plan.pyStrip ≠ "" then
      ["## III. Trading Team Plan\n\n### Trader\n" ++ trader_plan] else []) ++
    (if risk.2.isEmpty then [] else
      ["## IV. Risk Management Team Decision\n\n" ++ sectionBody risk.2]) ++
    (if judge.pyStrip ≠ "" then
      ["## V. Portfolio Manager Decision\n\n### Portfolio Manager\n" ++ judge] else []) ++
    (if copies.isEmpty then [] else
      ["## VI. Artifacts\n\nSaved under `6_artifacts/`."])
  let header := "# Trading Analysis Report: " ++ ticker ++ "\n\n" ++
      "Trade Date: " ++ trade_date ++ "\n\n" ++ "Generated: " ++ generated ++ "\n\n"
  { sectionWrites :=
      a.1 ++ research.1 ++
      (if trader_plan.pyStrip ≠ "" then [("3_trading/trader.md", trader_plan)] else []) ++
      risk.1 ++
      (if judge.pyStrip ≠ "" then [("5_portfolio/decision.md", judge)] else []),
    artifactCopies := copies,
    dirs :=
      (if a.2.isEmpty then [] else ["1_analysts"]) ++
      (if research.2.isEmpty then [] else ["2_research"]) ++
      (if trader_plan.pyStrip ≠ "" then ["3_trading"] else []) ++
      (if risk.2.isEmpty then [] else ["4_risk"]) ++
      (if judge.pyStrip ≠ "" then ["5_portfolio"] else []) ++
      (if copies.isEmpty then [] else ["6_artifacts"]),
    sections := sections,
    summary := header ++ "\n\n".intercalate sections }

/-- The flattened archive bundle listing, as `archive_dir.rglob("*")` sees it
after `_write_archive` finishes. -/
def archiveFileNames (arch : ArchiveResult) : List String :=
  arch.sectionWrites.map Prod.fst ++ arch.artifactCopies ++ ["complete_report.md"]

/-- The run state at the top of `_run_job`'s try block: status set to
`running`, `previous_reports` all empty, no writes yet. -/
def initialRunState (record : JobRecord) : RunState :=
  { record := JobManager.update_status record "running" none,
    prev := fun _ => "", writes := [] }

/-- Model of `JobManager._run_job` for a registered record.  `generated`
stands for the archive generation timestamp, `reportDirInit` for the names
already present in the result report directory, `archiveDirName` for the
timestamped archive directory path.  Returns the final record and the ordered
log of live-report-directory writes.  A raised pipeline exception is the
`Except.error` stream item; exceptions from other sources are not modelled. -/
def run_job (record : JobRecord) (generated : String) (reportDirInit : List String)
    (archiveDirName : String) (stream : List (Except String Chunk)) :
    JobRecord × List (String × String) :=
  let (st, final_state, failure) := runLoop (initialRunState record) emptyChunk stream
  match failure with
  | some msg =>
      let r := JobManager.update_status st.record "failed" (some msg)
      let r := r.append_event "error" (.errorData msg)
      (r, st.writes)
  | none =>
      let ticker := record.payload.ticker.toUpper
      let trade_date := orElseStr record.payload.end_date record.payload.analysis_date
      let finalWrites := write_reports final_state
      let writes := st.writes ++ finalWrites
      let names := dirListing (reportDirInit ++ writes.map Prod.fst)
      let arch := write_archive ticker trade_date generated final_state names
      let reports := names.filter (fun n => suffixLower n == ".md")
      let artifacts := names.filter (fun n => suffixLower n == ".png" || suffixLower n == ".csv")
      let archive_files := sortStrings (archiveFileNames arch)
      let r := { st.record with
                 reports := reports, artifacts := artifacts,
                 archive_dir := some archiveDirName, archive_files := archive_files }
      let r := r.append_event "completed"
        (.completedData ("results/" ++ ticker ++ "/" ++ trade_date ++ "/reports")
          reports artifacts archiveDirName archive_files
          r.llm_calls r.tool_calls r.tokens_in r.tokens_out
          (final_state.get "final_trade_decision"))
      let r := JobManager.update_status r "succeeded" none
      (r, writes)

/-- A file-system entry under some root directory: relative path segments,
whether it is a regular file, and its text content. -/
structure FsEntry where
  path : List String
  isFile : Bool
  content : String
deriving DecidableEq

/-- A directory tree, as the set of entries under a root. -/
abbrev FsTree := List FsEntry

/-- Entry at an exact relative path. -/
def fsLookup (t : FsTree) (p : List String) : Option FsEntry :=
  t.find? (fun e => e.path = p)

/-- `path.exists()` relative to the root: an explicit entry, or a directory
implied by a deeper entry. -/
def fsExists (t : FsTree) (p : List String) : Bool :=
  (fsLookup t p).isSome || t.any (fun e => p ≠ e.path && p.isPrefixOf e.path)

/-- `path.is_file()` relative to the root. -/
def fsIsFile (t : FsTree) (p : List String) : Bool :=
  match fsLookup t p with
  | some e => e.isFile
  | none => false

/-- `path.read_text()` relative to the root. -/
def fsContent (t : FsTree) (p : List String) : String :=
  match fsLookup t p with
  | some e => e.content
  | none => ""

/-- The observable outcome of a fetch endpoint: a text response, a file
response, a 400, or a 404. -/
inductive HttpResponse where
  | ok (body : String)
  | okFile (path : List String)
  | badRequest (detail : String)
  | notFound (detail : String)
deriving DecidableEq

/-- Model of `get_report` (web_app.py lines 138-146) for a known job, given
the report directory's tree.  The second component lists the relative paths
probed on the file system (empty when the request never reaches it). -/
def get_report (tree : FsTree) (report_name : String) :
    HttpResponse × List (List String) :=
  if hasPathSep report_name then
    (.badRequest "Invalid report name", [])
  else
    let p := [report_name]
    if (!fsExists tree p) || suffixLower report_name ≠ ".md" || (!fsIsFile tree p) then
      (.notFound "Report not found", [p])
    else
      (.ok (fsContent tree p), [p])

/-- `artifact_path.suffix.lower() in ("png", "csv")` as applied to a single
file name. -/
def artifactSuffixOk (name : String) : Bool :=
  suffixLower name == ".png" || suffixLower name == ".csv"

/-- Model of `get_artifact` (web_app.py lines 156-169), including the
recursive `rglob(artifact_name)` fallback (which matches files named
`artifact_name` at any depth, keeping those with an allowed suffix). -/
def get_artifact (tree : FsTree) (artifact_name : String) :
    HttpResponse × List (List String) :=
  if hasPathSep artifact_name then
    (.badRequest "Invalid artifact name", [])
  else
    let p := [artifact_name]
    if (!fsExists tree p) || (!artifactSuffixOk artifact_name) || (!fsIsFile tree p) then
      let ms := tree.filter (fun e =>
        e.isFile && e.path.getLast? == some artifact_name && artifactSuffixOk artifact_name)
      match ms.head? with
      | none => (.notFound "Artifact not found", [p])
      | some e => (.okFile e.path, [p])
    else
      (.okFile p, [p])

/-- Auxiliary splitter: accumulate the current (reversed) segment while
walking the characters. -/
def splitSlashAux : List Char → List Char → List String
  | cur, [] => [String.mk cur.reverse]
  | cur, c :: rest =>
      if c = '/' then String.mk cur.reverse :: splitSlashAux [] rest
      else splitSlashAux (c :: cur) rest

/-- `file_path.split("/")`, the segments of the `{file_path:path}` route
parameter (structural model of `str.split("/")`). -/
def splitSlash (s : String) : List String := splitSlashAux [] s.data

/-- Lexical model of `(archive_root / file_path).resolve()`: fold the
segments onto the already-resolved absolute base, where `..` pops a segment
(staying put at the filesystem root), and `.` or an empty segment is
dropped.  Symbolic links are not modelled. -/
def resolveSegs (base : List String) : List String → List String
  | [] => base
  | seg :: rest =>
      if seg = ".." then resolveSegs base.dropLast rest
      else if seg = "." ∨ seg = "" then resolveSegs base rest
      else resolveSegs (base ++ [seg]) rest

/-- Model of `(archive_root / file_path).resolve()` (web_app.py line 199).
`pathlib`'s `/` operator replaces the base when the right operand is an
absolute path (one beginning with `/`): such a `file_path` is resolved from
the filesystem root (`[]`), not from the archive root, and is then caught by
the prefix test unless it happens to spell a path inside the root. -/
def archiveTarget (archiveRoot : List String) (file_path : String) :
    List String :=
  if file_path.data.head? = some '/' then resolveSegs [] (splitSlash file_path)
  else resolveSegs archiveRoot (splitSlash file_path)

/-- Model of `get_archive_file` (web_app.py lines 191-212) for a known job
with a resolved archive root.  `archive_root.resolve() not in target.parents
and archive_root.resolve() != target` is the failure of the prefix test. -/
def get_archive_file (archiveRoot : List String) (tree : FsTree)
    (file_path : String) : HttpResponse × List (List String) :=
  let target := archiveTarget archiveRoot file_path
  if !(archiveRoot.isPrefixOf target) then
    (.badRequest "Invalid file path", [])
  else
    let rel := target.drop archiveRoot.length
    if (!fsExists tree rel) || (!fsIsFile tree rel) then
      (.notFound "File not found", [rel])
    else
      if suffixLower ((target.getLast?).getD "") == ".md" then
        (.ok (fsContent tree rel), [rel])
      else
        (.okFile rel, [rel])

/-- The event-log well-formedness invariant: the `seq` values are exactly
`1, 2, ..., length`, and `event_seq` is the number of appended events. -/
def JobRecord.eventLogOk (r : JobRecord) : Prop :=
  r.events.map Event.seq = List.range' 1 r.events.length ∧
  r.event_seq = r.events.length

/-- The job records reachable through the operations of `job_manager.py`:
creation (with its initial `status` event), any bare event append
(`message` / `report_ready` / `completed` / `error`), any `_update_status`
transition, and any mutation that leaves the event log untouched (counter
refresh, report / artifact / archive-listing updates). -/
inductive ReachableRecord : JobRecord → Prop where
  | created (job_id : String) (payload : JobCreateRequest) :
      ReachableRecord (newJobRecord job_id payload)
  | append (r : JobRecord) (ty : String) (d : EventData) :
      ReachableRecord r → ReachableRecord (r.append_event ty d)
  | transition (r : JobRecord) (s : String) (e : Option String) :
      ReachableRecord r → ReachableRecord (JobManager.update_status r s e)
  | mutate (r r' : JobRecord) :
      ReachableRecord r → r'.events = r.events → r'.event_seq = r.event_seq →
      ReachableRecord r'

/-- Every registered record of the store is reachable through the modelled
operations. -/
def ManagerOk (m : JobManager) : Prop :=
  ∀ id r, m.jobs id = some r → ReachableRecord r

/-- The terminal statuses. -/
def isTerminalStatus (s : String) : Bool :=
  s == "succeeded" || s == "failed" || s == "cancelled"

/-- A `status` event whose payload carries a terminal status. -/
def Event.isTerminalStatusEvent (e : Event) : Bool :=
  e.type == "status" &&
    (match e.data with
     | .statusData s _ => isTerminalStatus s
     | _ => false)

/-- Claim C2 as stated, for one job's final event log: exactly one `status`
event carries a terminal status, and no event of any type follows it. -/
def terminalStatusOnceAndLast (evs : List Event) : Prop :=
  (evs.filter Event.isTerminalStatusEvent).length = 1 ∧
  ∀ l₁ e l₂, evs = l₁ ++ e :: l₂ → e.isTerminalStatusEvent = true → l₂ = []

/-- The message of the first exception raised during stream iteration, if
any. -/
def firstFailure : List (Except String Chunk) → Option String
  | [] => none
  | .error msg :: _ => some msg
  | .ok _ :: rest => firstFailure rest

/-- Number of `report_ready` events for a given output key. -/
def countReportReady (key : String) (evs : List Event) : Nat :=
  (evs.filter (fun e => e.type == "report_ready" &&
    (match e.data with
     | .reportReadyData k _ => k == key
     | _ => false))).length

/-- The first line of a section block (its header), independent of the
report content that follows the first newline. -/
def firstLine (s : String) : String :=
  String.mk (s.data.takeWhile (fun c => c ≠ '\n'))

/-- At least one entry of a section has non-blank coerced content. -/
def keysPopulated (get : String → Option ChunkValue)
    (entries : List (String × String × String)) : Bool :=
  entries.any (fun e => (coerceText (get e.2.1)).pyStrip ≠ "")

/-- Section I has a populated key. -/
def analystsPopulated (fs : Chunk) : Bool := keysPopulated fs.get analystMap

/-- Section II has a populated key (the debate state must be a dict). -/
def researchPopulated (fs : Chunk) : Bool :=
  match getDictOr (fs.get "investment_debate_state") with
  | none => false
  | some d => keysPopulated (dictGet d) researchMap

/-- Section III has a populated key. -/
def tradingPopulated (fs : Chunk) : Bool :=
  (coerceText (fs.get "trader_investment_plan")).pyStrip ≠ ""

/-- Section IV has a populated key (the risk state must be a dict). -/
def riskPopulated (fs : Chunk) : Bool :=
  match getDictOr (fs.get "risk_debate_state") with
  | none => false
  | some d => keysPopulated (dictGet d) riskMap

/-- Section V has a populated key (the risk state must be a dict). -/
def portfolioPopulated (fs : Chunk) : Bool :=
  match getDictOr (fs.get "risk_debate_state") with
  | none => false
  | some d => (coerceText (dictGet d "judge_decision")).pyStrip ≠ ""

/-- Section VI has at least one artifact to copy. -/
def artifactsPopulated (reportDirNames : List String) : Bool :=
  reportDirNames.any artifactSuffixOk

/-- A concrete creation request, used by the witnesses. -/
def samplePayload : JobCreateRequest :=
  { ticker := "AAPL", analysis_date := "2025-01-02", timeframe := "1d",
    start_date := none, end_date := none, analysts := ["market"],
    selected_masters := [], llm_provider := "openai", backend_url := none,
    quick_think_llm := none, deep_think_llm := none,
    max_debate_rounds := 1, max_risk_discuss_rounds := 1 }

/-- A concrete store holding one freshly created job, used by the witnesses. -/
def sampleManager : JobManager :=
  { jobs := fun j => if j = "job1" then some (newJobRecord "job1" samplePayload) else none,
    tasks := ["job1"] }

/-- The store of a freshly started process: no jobs, no queued tasks. -/
def emptyManager : JobManager := { jobs := fun _ => none, tasks := [] }

/-- A snapshot carrying a single report key. -/
def singleKeyChunk (key v : String) : Chunk :=
  { entries := [(key, .str v)], messages := [],
    stats := { llm_calls := 0, tool_calls := 0, tokens_in := 0, tokens_out := 0 } }

/-- How the record may change across loop iterations of `_run_job`: the
status and error fields are untouched and only `message` / `report_ready`
events are appended. -/
def StreamStep (r r' : JobRecord) : Prop :=
  r'.status = r.status ∧ r'.error = r.error ∧
  ∃ delta, r'.events = r.events ++ delta ∧
    ∀ e ∈ delta, e.type = "message" ∨ e.type = "report_ready"

/-- The claim C9 invariant: the `reports` listing is sorted with no
duplicates. -/
def reportsOk (r : JobRecord) : Prop :=
  List.Sorted (· ≤ ·) r.reports ∧ r.reports.Nodup

/-! ## Event-log sequencing -/

theorem append_event_events (r : JobRecord) (ty : String) (d : EventData) :
    (r.append_event ty d).events =
      r.events ++ [{ seq := r.event_seq + 1, type := ty, data := d }] := rfl

theorem append_event_seq (r : JobRecord) (ty : String) (d : EventData) :
    (r.append_event ty d).event_seq = r.event_seq + 1 := rfl

theorem eventLogOk_append {r : JobRecord} (ty : String) (d : EventData)
    (h : r.eventLogOk) : (r.append_event ty d).eventLogOk := by
  obtain ⟨h1, h2⟩ := h
  constructor
  · rw [append_event_events, List.map_append, List.length_append, h1]
    simp [h2, List.range'_1_concat, Nat.add_comm]
  · rw [append_event_seq, append_event_events, List.length_append, h2]
    rfl

theorem eventLogOk_of_same_log {r r' : JobRecord} (h : r.eventLogOk)
    (he : r'.events = r.events) (hs : r'.event_seq = r.event_seq) :
    r'.eventLogOk := by
  rw [JobRecord.eventLogOk, he, hs]; exact h

theorem eventLogOk_update_status {r : JobRecord} (s : String) (e : Option String)
    (h : r.eventLogOk) : (JobManager.update_status r s e).eventLogOk := by
  unfold JobManager.update_status
  cases truthyStr e
  · exact eventLogOk_append _ _ (eventLogOk_of_same_log h rfl rfl)
  · exact eventLogOk_append _ _ (eventLogOk_of_same_log h rfl rfl)

theorem newJobRecord_eventLogOk (job_id : String) (payload : JobCreateRequest) :
    (newJobRecord job_id payload).eventLogOk := ⟨rfl, rfl⟩

theorem reachable_eventLogOk {r : JobRecord} (h : ReachableRecord r) :
    r.eventLogOk := by
  induction h with
  | created job_id payload => exact newJobRecord_eventLogOk job_id payload
  | append r ty d _ ih => exact eventLogOk_append ty d ih
  | transition r s e _ ih => exact eventLogOk_update_status s e ih
  | mutate r r' _ he hs ih => exact eventLogOk_of_same_log ih he hs

theorem eventLogOk_pairwise {r : JobRecord} (h : r.eventLogOk) :
    r.events.Pairwise (fun a b => a.seq < b.seq) := by
  have hp : (r.events.map Event.seq).Pairwise (· < ·) := by
    rw [h.1]; exact List.pairwise_lt_range' 1 r.events.length
  exact List.pairwise_map.mp hp

theorem eventLogOk_seq_le {r : JobRecord} (h : r.eventLogOk) :
    ∀ e ∈ r.events, e.seq ≤ r.event_seq := by
  intro e he
  have hm : e.seq ∈ r.events.map Event.seq := List.mem_map_of_mem Event.seq he
  rw [h.1] at hm
  have h1 := (List.mem_range'_1.mp hm).2
  have h2 := h.2
  omega

/-- **C1.** For every job, the `seq` values of the events in its event log are
strictly increasing with no gaps, start at 1 for the first appended event, and
are assigned at append time (`event_seq` equals the number of events ever
appended) and never reused — regardless of which operations (creation, status
transitions, message/report/completed/error appends, or log-preserving
mutations) produced the record.  `map Event.seq = range' 1 length` says the
log's sequence numbers are exactly `1, 2, ..., length`. -/
theorem C1_event_seq_gapless_from_one (r : JobRecord) (h : ReachableRecord r) :
    r.events.map Event.seq = List.range' 1 r.events.length ∧
    r.event_seq = r.events.length :=
  reachable_eventLogOk h

theorem C1_event_seq_gapless_from_one_witness :
    ReachableRecord (newJobRecord "job1" samplePayload) ∧
    ((newJobRecord "job1" samplePayload).events.map Event.seq =
       List.range' 1 (newJobRecord "job1" samplePayload).events.length ∧
     (newJobRecord "job1" samplePayload).event_seq =
       (newJobRecord "job1" samplePayload).events.length) :=
  ⟨ReachableRecord.created "job1" samplePayload,
   C1_event_seq_gapless_from_one _ (ReachableRecord.created "job1" samplePayload)⟩

/-- **C3.** For every registered job and every cursor `n`,
`list_events_since` returns exactly the events of that job's log whose `seq`
is strictly greater than `n`, in ascending `seq` order; for any `n` at or
above the highest existing `seq` (which is `event_seq`) it returns the empty
list; and for an unknown job it returns the empty list rather than raising. -/
theorem C3_list_events_since_correct (m : JobManager) (hm : ManagerOk m)
    (job_id : String) (n : Nat) :
    (m.list_events_since job_id n).Pairwise (fun a b => a.seq < b.seq) ∧
    (∀ e, e ∈ m.list_events_since job_id n ↔
      ∃ r, m.jobs job_id = some r ∧ e ∈ r.events ∧ n < e.seq) ∧
    (∀ r, m.jobs job_id = some r → r.event_seq ≤ n →
      m.list_events_since job_id n = []) ∧
    (m.jobs job_id = none → m.list_events_since job_id n = []) := by
  rcases hj : m.jobs job_id with _ | r
  · simp only [JobManager.list_events_since, hj]
    refine ⟨List.Pairwise.nil, ?_, ?_, by trivial⟩
    · intro e; simp
    · intro r h; exact absurd h (by simp)
  · have hok : r.eventLogOk := reachable_eventLogOk (hm job_id r hj)
    simp only [JobManager.list_events_since, hj]
    refine ⟨?_, ?_, ?_, ?_⟩
    · exact List.Pairwise.sublist (List.filter_sublist _) (eventLogOk_pairwise hok)
    · intro e
      rw [List.mem_filter]
      constructor
      · rintro ⟨he, hp⟩
        exact ⟨r, rfl, he, by simpa using hp⟩
      · rintro ⟨r', hr', he, hn⟩
        obtain rfl : r = r' := by injection hr'
        exact ⟨he, by simpa using hn⟩
    · intro r' hr' hle
      obtain rfl : r = r' := by injection hr'
      rw [List.eq_nil_iff_forall_not_mem]
      intro e he
      rw [List.mem_filter] at he
      have := eventLogOk_seq_le hok e he.1
      have := of_decide_eq_true he.2
      omega
    · intro h; exact absurd h (by simp)

theorem C3_list_events_since_correct_witness :
    ManagerOk sampleManager ∧
    JobManager.list_events_since sampleManager "missing" 0 = [] := by
  have hm : ManagerOk sampleManager := by
    intro id r h
    by_cases hid : id = "job1"
    · subst hid
      have : some (newJobRecord "job1" samplePayload) = some r := h
      obtain rfl : newJobRecord "job1" samplePayload = r := by injection this
      exact ReachableRecord.created "job1" samplePayload
    · simp [sampleManager, hid] at h
  exact ⟨hm, (C3_list_events_since_correct sampleManager hm "missing" 0).2.2.2 rfl⟩

/-- **C8.** Every `create_job` call: given a fresh identifier (the model of
`uuid4().hex`), it constructs a record in `queued` status whose log holds
exactly the initial `status` event with `seq = 1`, registers the record in
the store without touching other entries, and enqueues one run task for the
scheduler; it performs no pipeline work — the registered record is still
`queued`, and `create_job` does not even receive the pipeline stream, so it
returns without waiting on any execution. -/
theorem C8_create_job_registers_queued (m : JobManager) (job_id : String)
    (payload : JobCreateRequest) (hfresh : m.jobs job_id = none) :
    (m.create_job job_id payload).2.status = "queued" ∧
    (m.create_job job_id payload).2.job_id = job_id ∧
    (m.create_job job_id payload).2.events =
      [{ seq := 1, type := "status", data := .statusData "queued" none }] ∧
    (m.create_job job_id payload).1.jobs job_id =
      some (m.create_job job_id payload).2 ∧
    (∀ j, j ≠ job_id → (m.create_job job_id payload).1.jobs j = m.jobs j) ∧
    (m.create_job job_id payload).1.tasks = m.tasks ++ [job_id] := by
  refine ⟨rfl, rfl, rfl, ?_, ?_, rfl⟩
  · simp [JobManager.create_job]
  · intro j hj
    simp [JobManager.create_job, hj]

theorem C8_create_job_registers_queued_witness :
    emptyManager.jobs "job1" = none ∧
    ((emptyManager.create_job "job1" samplePayload).2.status = "queued" ∧
     (emptyManager.create_job "job1" samplePayload).2.job_id = "job1" ∧
     (emptyManager.create_job "job1" samplePayload).2.events =
       [{ seq := 1, type := "status", data := .statusData "queued" none }] ∧
     (emptyManager.create_job "job1" samplePayload).1.jobs "job1" =
       some (emptyManager.create_job "job1" samplePayload).2 ∧
     (∀ j, j ≠ "job1" →
       (emptyManager.create_job "job1" samplePayload).1.jobs j = emptyManager.jobs j) ∧
     (emptyManager.create_job "job1" samplePayload).1.tasks =
       emptyManager.tasks ++ ["job1"]) :=
  ⟨rfl, C8_create_job_registers_queued emptyManager "job1" samplePayload rfl⟩

/-! ## Run-loop structure -/

theorem StreamStep.rfl (r : JobRecord) : StreamStep r r :=
  ⟨by rfl, by rfl, [], (List.append_nil _).symm, by simp⟩

theorem StreamStep.trans {r₁ r₂ r₃ : JobRecord}
    (h₁ : StreamStep r₁ r₂) (h₂ : StreamStep r₂ r₃) : StreamStep r₁ r₃ := by
  obtain ⟨hs₁, he₁, d₁, hd₁, ht₁⟩ := h₁
  obtain ⟨hs₂, he₂, d₂, hd₂, ht₂⟩ := h₂
  refine ⟨hs₂.trans hs₁, he₂.trans he₁, d₁ ++ d₂, ?_, ?_⟩
  · rw [hd₂, hd₁, List.append_assoc]
  · intro e he
    rcases List.mem_append.mp he with h | h
    exacts [ht₁ e h, ht₂ e h]

theorem StreamStep.append {r : JobRecord} (ty : String) (d : EventData)
    (hty : ty = "message" ∨ ty = "report_ready") :
    StreamStep r (r.append_event ty d) :=
  ⟨by rfl, by rfl, [{ seq := r.event_seq + 1, type := ty, data := d }], by rfl, by
    intro e he
    simp only [List.mem_singleton] at he
    subst he
    exact hty⟩

theorem StreamStep.counters (r : JobRecord) (st : Stats) :
    StreamStep r { r with
                   llm_calls := st.llm_calls, tool_calls := st.tool_calls,
                   tokens_in := st.tokens_in, tokens_out := st.tokens_out } :=
  ⟨by rfl, by rfl, [], (List.append_nil _).symm, by simp⟩

theorem StreamStep.setReports (r : JobRecord) (rs : List String) :
    StreamStep r { r with reports := rs } :=
  ⟨by rfl, by rfl, [], (List.append_nil _).symm, by simp⟩

theorem streamStep_processMessages (r : JobRecord) (c : Chunk) :
    StreamStep r (processMessages r c) := by
  unfold processMessages
  cases hm : c.messages.getLast? with
  | none => exact StreamStep.rfl r
  | some m =>
      show StreamStep r
        (if m.isBaseMessage then
          (if m.text ≠ "" then
            r.append_event "message" (.messageData m.name (strTakeRight 2000 m.text))
          else r)
        else r)
      by_cases hb : m.isBaseMessage = true
      · rw [if_pos hb]
        by_cases ht : m.text ≠ ""
        · rw [if_pos ht]; exact StreamStep.append _ _ (Or.inl (by rfl))
        · rw [if_neg ht]; exact StreamStep.rfl r
      · rw [if_neg hb]; exact StreamStep.rfl r

theorem processReportKey_eq_self (c : Chunk) (st : RunState) (kv : String × String)
    (hc : ∀ s, c.get kv.1 ≠ some (.str s)) : processReportKey c st kv = st := by
  unfold processReportKey
  cases hget : c.get kv.1 with
  | none => rfl
  | some v =>
      cases v with
      | str s => exact absurd hget (hc s)
      | vnone => rfl
      | vlist items => rfl
      | vdict entries => rfl
      | other r => rfl

theorem processReportKey_str (c : Chunk) (st : RunState) (kv : String × String)
    (s : String) (hc : c.get kv.1 = some (.str s)) :
    processReportKey c st kv =
      if s.pyStrip ≠ "" then
        if st.prev kv.1 ≠ s then
          { record := ((if kv.2 ∈ st.record.reports then st.record
                        else { st.record with
                               reports := (st.record.reports ++ [kv.2]).insertionSort (· ≤ ·) }).append_event
                        "report_ready" (.reportReadyData kv.1 s.length)),
            prev := fun k => if k = kv.1 then s else st.prev k,
            writes := st.writes ++ [(kv.2, s)] }
        else st
      else st := by
  unfold processReportKey
  rw [hc]

theorem streamStep_processReportKey (c : Chunk) (st : RunState) (kv : String × String) :
    StreamStep st.record (processReportKey c st kv).record := by
  cases hc : c.get kv.1 with
  | none =>
      rw [processReportKey_eq_self c st kv (by intro s h; rw [hc] at h; cases h)]
      exact StreamStep.rfl _
  | some v =>
      cases v with
      | str s =>
          rw [processReportKey_str c st kv s hc]
          by_cases h1 : s.pyStrip ≠ ""
          · rw [if_pos h1]
            by_cases h2 : st.prev kv.1 ≠ s
            · rw [if_pos h2]
              refine StreamStep.trans ?_ (StreamStep.append _ _ (Or.inr (by rfl)))
              by_cases h3 : kv.2 ∈ st.record.reports
              · rw [if_pos h3]; exact StreamStep.rfl _
              · rw [if_neg h3]; exact StreamStep.setReports _ _
            · rw [if_neg h2]; exact StreamStep.rfl _
          · rw [if_neg h1]; exact StreamStep.rfl _
      | vnone =>
          rw [processReportKey_eq_self c st kv (by intro s h; rw [hc] at h; cases h)]
          exact StreamStep.rfl _
      | vlist items =>
          rw [processReportKey_eq_self c st kv (by intro s h; rw [hc] at h; cases h)]
          exact StreamStep.rfl _
      | vdict entries =>
          rw [processReportKey_eq_self c st kv (by intro s h; rw [hc] at h; cases h)]
          exact StreamStep.rfl _
      | other r =>
          rw [processReportKey_eq_self c st kv (by intro s h; rw [hc] at h; cases h)]
          exact StreamStep.rfl _

theorem streamStep_foldl_reportKeys (c : Chunk) :
    ∀ (keys : List (String × String)) (st : RunState),
      StreamStep st.record (keys.foldl (processReportKey c) st).record := by
  intro keys
  induction keys with
  | nil => intro st; exact StreamStep.rfl _
  | cons kv rest ih =>
      intro st
      exact StreamStep.trans (streamStep_processReportKey c st kv) (ih _)

theorem streamStep_processChunk (st : RunState) (c : Chunk) :
    StreamStep st.record (processChunk st c).record := by
  unfold processChunk
  refine StreamStep.trans (StreamStep.counters st.record c.stats) ?_
  refine StreamStep.trans (streamStep_processMessages _ c) ?_
  exact streamStep_foldl_reportKeys c REPORT_FILES _

theorem streamStep_runLoop (stream : List (Except String Chunk)) :
    ∀ (st : RunState) (fs : Chunk),
      StreamStep st.record (runLoop st fs stream).1.record := by
  induction stream with
  | nil => intro st fs; exact StreamStep.rfl _
  | cons item rest ih =>
      intro st fs
      cases item with
      | error msg => exact StreamStep.rfl _
      | ok c => exact StreamStep.trans (streamStep_processChunk st c) (ih _ _)

theorem runLoop_failure_eq_firstFailure (stream : List (Except String Chunk)) :
    ∀ (st : RunState) (fs : Chunk),
      (runLoop st fs stream).2.2 = firstFailure stream := by
  induction stream with
  | nil => intro st fs; rfl
  | cons item rest ih =>
      intro st fs
      cases item with
      | error msg => rfl
      | ok c => exact ih _ _

theorem runLoop_ok_append (msg : String) (rest : List (Except String Chunk)) :
    ∀ (pref : List Chunk) (st : RunState) (fs : Chunk),
      runLoop st fs (pref.map Except.ok ++ Except.error msg :: rest) =
        ((runLoop st fs (pref.map Except.ok)).1,
         (runLoop st fs (pref.map Except.ok)).2.1, some msg) := by
  intro pref
  induction pref with
  | nil => intro st fs; rfl
  | cons c cs ih => intro st fs; exact ih _ _

/-! ## Terminal-status structure of the event log (C2/C5) -/

theorem update_status_events (r : JobRecord) (s : String) (e : Option String) :
    (JobManager.update_status r s e).events =
      r.events ++ [{ seq := r.event_seq + 1, type := "status",
                     data := .statusData s (truthyStr e) }] ∧
    (JobManager.update_status r s e).event_seq = r.event_seq + 1 ∧
    (JobManager.update_status r s e).status = s := by
  unfold JobManager.update_status
  cases truthyStr e <;> exact ⟨rfl, rfl, rfl⟩

theorem update_status_error_set (r : JobRecord) (s msg : String) (h : msg ≠ "") :
    (JobManager.update_status r s (some msg)).error = some msg := by
  have ht : truthyStr (some msg) = some msg := by simp [truthyStr, h]
  unfold JobManager.update_status
  rw [ht]
  rfl

theorem not_terminal_of_step_type {e : Event}
    (h : e.type = "message" ∨ e.type = "report_ready") :
    e.isTerminalStatusEvent = false := by
  rcases h with h | h <;> simp [Event.isTerminalStatusEvent, h]

theorem mem_of_concat_decomp {α : Type} (front : List α) (lastEl : α) :
    ∀ (l₁ : List α) (e : α) (l₂ : List α),
      front ++ [lastEl] = l₁ ++ e :: l₂ → l₂ = [] ∨ e ∈ front := by
  induction front with
  | nil =>
      intro l₁ e l₂ h
      cases l₁ with
      | nil =>
          injection h with h1 h2
          exact Or.inl h2.symm
      | cons x xs =>
          injection h with h1 h2
          simp at h2
  | cons a front ih =>
      intro l₁ e l₂ h
      cases l₁ with
      | nil =>
          injection h with h1 h2
          exact Or.inr (by rw [← h1]; exact List.mem_cons_self a front)
      | cons x xs =>
          injection h with h1 h2
          rcases ih xs e l₂ h2 with h' | h'
          · exact Or.inl h'
          · exact Or.inr (List.mem_cons_of_mem a h')

theorem terminal_last_clear {front : List Event} {lastEv : Event}
    (hfront : ∀ e ∈ front, e.isTerminalStatusEvent = false) :
    ∀ l₁ e l₂, front ++ [lastEv] = l₁ ++ e :: l₂ →
      e.isTerminalStatusEvent = true → l₂ = [] := by
  intro l₁ e l₂ heq hterm
  rcases mem_of_concat_decomp front lastEv l₁ e l₂ heq with h | h
  · exact h
  · rw [hfront e h] at hterm
    exact absurd hterm (by simp)

theorem filter_terminal_nil {l : List Event}
    (h : ∀ e ∈ l, e.isTerminalStatusEvent = false) :
    l.filter Event.isTerminalStatusEvent = [] :=
  List.filter_eq_nil_iff.mpr (by intro a ha; simp [h a ha])

/-- **C2 (amended).** For every job run, exactly one `status` event in the
final event log carries a terminal status.  On the success path no event of
any type follows it.  On the failure path, however, the terminal `failed`
status event is followed by exactly one further event — the `error` event
appended right after `_update_status(record, "failed", ...)` — and by nothing
else. -/
theorem C2_one_terminal_status_error_follows_on_failure
    (payload : JobCreateRequest) (job_id generated archiveDirName : String)
    (reportDirInit : List String) (stream : List (Except String Chunk)) :
    (((run_job (newJobRecord job_id payload) generated reportDirInit
        archiveDirName stream).1.events.filter Event.isTerminalStatusEvent).length = 1) ∧
    (firstFailure stream = none →
      terminalStatusOnceAndLast
        (run_job (newJobRecord job_id payload) generated reportDirInit
          archiveDirName stream).1.events) ∧
    (∀ msg, firstFailure stream = some msg →
      ∃ pre n,
        (run_job (newJobRecord job_id payload) generated reportDirInit
          archiveDirName stream).1.events =
          pre ++ [{ seq := n, type := "status",
                    data := .statusData "failed" (truthyStr (some msg)) },
                  { seq := n + 1, type := "error", data := .errorData msg }] ∧
        pre.filter Event.isTerminalStatusEvent = []) := by
  rcases hL : runLoop (initialRunState (newJobRecord job_id payload)) emptyChunk stream
    with ⟨st, fs, failure⟩
  have hff : failure = firstFailure stream := by
    have h := runLoop_failure_eq_firstFailure stream
      (initialRunState (newJobRecord job_id payload)) emptyChunk
    rw [hL] at h
    exact h
  have hstep : StreamStep (initialRunState (newJobRecord job_id payload)).record st.record := by
    have h := streamStep_runLoop stream
      (initialRunState (newJobRecord job_id payload)) emptyChunk
    rw [hL] at h
    exact h
  obtain ⟨hstat, herr, delta, hev, hdelta⟩ := hstep
  have hev0 : (initialRunState (newJobRecord job_id payload)).record.events =
      [{ seq := 1, type := "status", data := .statusData "queued" none },
       { seq := 2, type := "status", data := .statusData "running" none }] := rfl
  have hfront : ∀ e ∈ st.record.events, e.isTerminalStatusEvent = false := by
    intro e he
    rw [hev, hev0] at he
    simp only [List.mem_append, List.mem_cons, List.mem_singleton] at he
    rcases he with (he | he | he) | he
    · rw [he]; rfl
    · rw [he]; rfl
    · cases he
    · exact not_terminal_of_step_type (hdelta e he)
  cases failure with
  | some msg =>
      have hrun : (run_job (newJobRecord job_id payload) generated reportDirInit
          archiveDirName stream).1 =
          (JobManager.update_status st.record "failed" (some msg)).append_event
            "error" (.errorData msg) := by
        unfold run_job
        rw [hL]
      have hevs : (run_job (newJobRecord job_id payload) generated reportDirInit
          archiveDirName stream).1.events =
          st.record.events ++
            [{ seq := st.record.event_seq + 1, type := "status",
               data := .statusData "failed" (truthyStr (some msg)) },
             { seq := st.record.event_seq + 1 + 1, type := "error",
               data := .errorData msg }] := by
        rw [hrun, append_event_events,
            (update_status_events st.record "failed" (some msg)).1,
            (update_status_events st.record "failed" (some msg)).2.1,
            List.append_assoc]
        rfl
      have hcount : ((run_job (newJobRecord job_id payload) generated reportDirInit
          archiveDirName stream).1.events.filter Event.isTerminalStatusEvent).length = 1 := by
        rw [hevs, List.filter_append, filter_terminal_nil hfront]
        rfl
      refine ⟨hcount, ?_, ?_⟩
      · intro h
        rw [← hff] at h
        cases h
      · intro msg' hmsg'
        rw [← hff] at hmsg'
        injection hmsg' with hmm
        subst hmm
        exact ⟨st.record.events, st.record.event_seq + 1, hevs,
          filter_terminal_nil hfront⟩
  | none =>
      obtain ⟨d, hevs⟩ :
          ∃ d : EventData,
            (run_job (newJobRecord job_id payload) generated reportDirInit
              archiveDirName stream).1.events =
            (st.record.events ++
              [{ seq := st.record.event_seq + 1, type := "completed", data := d }]) ++
              [{ seq := st.record.event_seq + 1 + 1, type := "status",
                 data := .statusData "succeeded" none }] := by
        unfold run_job
        rw [hL]
        dsimp only
        exact ⟨_, rfl⟩
      have hfront2 : ∀ e ∈ st.record.events ++
          [{ seq := st.record.event_seq + 1, type := "completed", data := d }],
          e.isTerminalStatusEvent = false := by
        intro e he
        rcases List.mem_append.mp he with h | h
        · exact hfront e h
        · simp only [List.mem_singleton] at h
          rw [h]
          rfl
      have hcount : ((run_job (newJobRecord job_id payload) generated reportDirInit
          archiveDirName stream).1.events.filter Event.isTerminalStatusEvent).length = 1 := by
        rw [hevs, List.filter_append, filter_terminal_nil hfront2]
        rfl
      refine ⟨hcount, ?_, ?_⟩
      · intro _
        exact ⟨hcount, by rw [hevs]; exact terminal_last_clear hfront2⟩
      · intro msg' hmsg'
        rw [← hff] at hmsg'
        cases hmsg'

theorem C2_one_terminal_status_error_follows_on_failure_witness :
    firstFailure [Except.error "boom"] = some "boom" ∧
    (∃ pre n,
      (run_job (newJobRecord "job1" samplePayload) "ts" [] "arch"
        [Except.error "boom"]).1.events =
        pre ++ [{ seq := n, type := "status",
                  data := .statusData "failed" (truthyStr (some "boom")) },
                { seq := n + 1, type := "error", data := .errorData "boom" }] ∧
      pre.filter Event.isTerminalStatusEvent = []) :=
  ⟨rfl,
   (C2_one_terminal_status_error_follows_on_failure samplePayload "job1" "ts"
     "arch" [] [Except.error "boom"]).2.2 "boom" rfl⟩

/-- **C2 counterexample.** The claim "no event of any type is appended after
the terminal `status` event, on the failure path as well" is false on the
code: for a job whose pipeline raises `"boom"` before yielding any snapshot,
the final event log is `status queued, status running, status failed, error`
— the `error` event follows the terminal `failed` status event. -/
theorem C2_counterexample :
    ¬ terminalStatusOnceAndLast
        (run_job (newJobRecord "job1" samplePayload) "ts" [] "arch"
          [Except.error "boom"]).1.events := by
  intro h
  have heq : (run_job (newJobRecord "job1" samplePayload) "ts" [] "arch"
      [Except.error "boom"]).1.events =
      [{ seq := 1, type := "status", data := .statusData "queued" none },
       { seq := 2, type := "status", data := .statusData "running" none },
       { seq := 3, type := "status", data := .statusData "failed" (some "boom") },
       { seq := 4, type := "error", data := .errorData "boom" }] := rfl
  have h4 := h.2
    [{ seq := 1, type := "status", data := .statusData "queued" none },
     { seq := 2, type := "status", data := .statusData "running" none }]
    { seq := 3, type := "status", data := .statusData "failed" (some "boom") }
    [{ seq := 4, type := "error", data := .errorData "boom" }]
    (by rw [heq]; rfl) rfl
  simp at h4

/-- **C5 (amended).** When the pipeline raises during snapshot iteration, the
job's status transitions to `failed`, the failure's message is recorded in the
`error` field provided it is non-empty (`_update_status` tests Python
truthiness, so an empty exception message leaves the field unset — see the
counterexample), an `error` event carrying the message is appended as the last
event, no further snapshots are consumed (the run is identical to the run
whose stream ends at the failure), and the live writes performed before the
failure are returned unchanged — the failure path performs no further write
and nothing is rolled back. -/
theorem C5_failure_stops_and_keeps_partial_output
    (payload : JobCreateRequest) (job_id generated archiveDirName : String)
    (reportDirInit : List String) (pref : List Chunk) (msg : String)
    (rest : List (Except String Chunk)) (hmsg : msg ≠ "") :
    run_job (newJobRecord job_id payload) generated reportDirInit archiveDirName
        (pref.map Except.ok ++ Except.error msg :: rest) =
      run_job (newJobRecord job_id payload) generated reportDirInit archiveDirName
        (pref.map Except.ok ++ [Except.error msg]) ∧
    (run_job (newJobRecord job_id payload) generated reportDirInit archiveDirName
        (pref.map Except.ok ++ Except.error msg :: rest)).1.status = "failed" ∧
    (run_job (newJobRecord job_id payload) generated reportDirInit archiveDirName
        (pref.map Except.ok ++ Except.error msg :: rest)).1.error = some msg ∧
    (∃ n, (run_job (newJobRecord job_id payload) generated reportDirInit archiveDirName
        (pref.map Except.ok ++ Except.error msg :: rest)).1.events.getLast? =
      some { seq := n, type := "error", data := .errorData msg }) ∧
    (run_job (newJobRecord job_id payload) generated reportDirInit archiveDirName
        (pref.map Except.ok ++ Except.error msg :: rest)).2 =
      (runLoop (initialRunState (newJobRecord job_id payload)) emptyChunk
        (pref.map Except.ok)).1.writes := by
  have hrunA : run_job (newJobRecord job_id payload) generated reportDirInit
      archiveDirName (pref.map Except.ok ++ Except.error msg :: rest) =
      ((JobManager.update_status
          (runLoop (initialRunState (newJobRecord job_id payload)) emptyChunk
            (pref.map Except.ok)).1.record "failed" (some msg)).append_event
        "error" (.errorData msg),
       (runLoop (initialRunState (newJobRecord job_id payload)) emptyChunk
         (pref.map Except.ok)).1.writes) := by
    unfold run_job
    rw [runLoop_ok_append msg rest pref]
  have hrunB : run_job (newJobRecord job_id payload) generated reportDirInit
      archiveDirName (pref.map Except.ok ++ [Except.error msg]) =
      ((JobManager.update_status
          (runLoop (initialRunState (newJobRecord job_id payload)) emptyChunk
            (pref.map Except.ok)).1.record "failed" (some msg)).append_event
        "error" (.errorData msg),
       (runLoop (initialRunState (newJobRecord job_id payload)) emptyChunk
         (pref.map Except.ok)).1.writes) := by
    unfold run_job
    rw [runLoop_ok_append msg [] pref]
  refine ⟨hrunA.trans hrunB.symm, ?_, ?_, ?_, ?_⟩
  · rw [hrunA]
    exact (update_status_events _ _ _).2.2
  · rw [hrunA]
    exact update_status_error_set _ _ _ hmsg
  · refine ⟨(JobManager.update_status
        (runLoop (initialRunState (newJobRecord job_id payload)) emptyChunk
          (pref.map Except.ok)).1.record "failed" (some msg)).event_seq + 1, ?_⟩
    rw [hrunA]
    show ((JobManager.update_status _ "failed" (some msg)).append_event
      "error" (.errorData msg)).events.getLast? = _
    rw [append_event_events]
    exact List.getLast?_concat _
  · rw [hrunA]

theorem C5_failure_stops_and_keeps_partial_output_witness :
    ("boom" : String) ≠ "" ∧
    (run_job (newJobRecord "job1" samplePayload) "ts" [] "arch"
        (List.map Except.ok [] ++ Except.error "boom" :: [Except.ok emptyChunk])).1.status
      = "failed" :=
  ⟨by decide,
   (C5_failure_stops_and_keeps_partial_output samplePayload "job1" "ts" "arch"
     [] [] "boom" [Except.ok emptyChunk] (by decide)).2.1⟩

/-- **C5 counterexample.** The claim says the failure's message is recorded
in the `error` field for every failure; but `_update_status` only assigns
`record.error` when the message is truthy, so a pipeline exception whose
message is the empty string leaves `error = None` even though the status does
become `failed` and the `error` event is appended. -/
theorem C5_counterexample :
    (run_job (newJobRecord "job1" samplePayload) "ts" [] "arch"
      [Except.error ""]).1.status = "failed" ∧
    (run_job (newJobRecord "job1" samplePayload) "ts" [] "arch"
      [Except.error ""]).1.error = none ∧
    (run_job (newJobRecord "job1" samplePayload) "ts" [] "arch"
      [Except.error ""]).1.events.getLast? =
      some { seq := 4, type := "error", data := .errorData "" } :=
  ⟨rfl, rfl, rfl⟩

/-! ## Report diffing (C4) -/

theorem processReportKey_none (c : Chunk) (st : RunState) (kv : String × String)
    (hc : c.get kv.1 = none) : processReportKey c st kv = st :=
  processReportKey_eq_self c st kv (by intro s h; rw [hc] at h; cases h)

theorem foldl_processReportKey_none (c : Chunk) :
    ∀ (keys : List (String × String)) (st : RunState),
      (∀ kv ∈ keys, c.get kv.1 = none) →
      keys.foldl (processReportKey c) st = st := by
  intro keys
  induction keys with
  | nil => intro st _; rfl
  | cons kv rest ih =>
      intro st h
      rw [List.foldl_cons, processReportKey_none c st kv (h kv (List.mem_cons_self _ _))]
      exact ih st (fun kv' h' => h kv' (List.mem_cons_of_mem _ h'))

theorem foldl_processReportKey_single (c : Chunk) :
    ∀ (keys : List (String × String)) (st : RunState) (key fname : String),
      (key, fname) ∈ keys →
      (keys.map Prod.fst).Nodup →
      (∀ kv ∈ keys, kv.1 ≠ key → c.get kv.1 = none) →
      keys.foldl (processReportKey c) st = processReportKey c st (key, fname) := by
  intro keys
  induction keys with
  | nil => intro st key fname h _ _; cases h
  | cons kv rest ih =>
      intro st key fname hmem hnd hnone
      rw [List.map_cons, List.nodup_cons] at hnd
      rcases List.mem_cons.mp hmem with heq | hmem'
      · have hrest : ∀ kv' ∈ rest, c.get kv'.1 = none := by
          intro kv' hkv'
          apply hnone kv' (List.mem_cons_of_mem _ hkv')
          intro hk
          apply hnd.1
          have h1 : kv'.1 ∈ rest.map Prod.fst := List.mem_map_of_mem Prod.fst hkv'
          rw [hk] at h1
          rw [← heq]
          exact h1
        rw [List.foldl_cons, ← heq, foldl_processReportKey_none c rest _ hrest]
      · have hkv1 : kv.1 ≠ key := by
          intro h
          have hkey : key ∈ rest.map Prod.fst := List.mem_map_of_mem Prod.fst hmem'
          exact hnd.1 (h ▸ hkey)
        rw [List.foldl_cons, processReportKey_none c st kv
              (hnone kv (List.mem_cons_self _ _) hkv1)]
        exact ih st key fname hmem' hnd.2
          (fun kv' h' hk => hnone kv' (List.mem_cons_of_mem _ h') hk)

theorem singleKeyChunk_get_self (key v : String) :
    (singleKeyChunk key v).get key = some (.str v) := by
  simp [singleKeyChunk, Chunk.get, List.lookup]

theorem singleKeyChunk_get_other (key v k : String) (h : k ≠ key) :
    (singleKeyChunk key v).get k = none := by
  have hb : (k == key) = false := beq_eq_false_iff_ne.mpr h
  simp [singleKeyChunk, Chunk.get, List.lookup, hb]

theorem processChunk_singleKey (st : RunState) (key fname v : String)
    (hmem : (key, fname) ∈ REPORT_FILES) :
    processChunk st (singleKeyChunk key v) =
      processReportKey (singleKeyChunk key v)
        { st with record := { st.record with
            llm_calls := 0, tool_calls := 0, tokens_in := 0, tokens_out := 0 } }
        (key, fname) := by
  unfold processChunk
  exact foldl_processReportKey_single (singleKeyChunk key v) REPORT_FILES _ key fname
    hmem (by decide) (fun kv _ hk => singleKeyChunk_get_other key v kv.1 hk)

theorem processReportKey_write (c : Chunk) (st : RunState) (key fname s : String)
    (hc : c.get key = some (.str s)) (hs : s.pyStrip ≠ "") (hprev : st.prev key ≠ s) :
    processReportKey c st (key, fname) =
      { record := ((if fname ∈ st.record.reports then st.record
                    else { st.record with
                           reports := (st.record.reports ++ [fname]).insertionSort (· ≤ ·) }).append_event
                    "report_ready" (.reportReadyData key s.length)),
        prev := fun k => if k = key then s else st.prev k,
        writes := st.writes ++ [(fname, s)] } := by
  rw [processReportKey_str c st (key, fname) s hc, if_pos hs, if_pos hprev]

theorem processReportKey_unchanged (c : Chunk) (st : RunState) (key fname s : String)
    (hc : c.get key = some (.str s)) (hprev : st.prev key = s) :
    processReportKey c st (key, fname) = st := by
  rw [processReportKey_str c st (key, fname) s hc]
  by_cases hs : s.pyStrip ≠ ""
  · rw [if_pos hs, if_neg (by simp [hprev])]
  · rw [if_neg hs]

theorem reports_update_events (r : JobRecord) (fname : String) :
    (if fname ∈ r.reports then r
     else { r with reports := (r.reports ++ [fname]).insertionSort (· ≤ ·) }).events
      = r.events := by
  split <;> rfl

/-- **C4.** One `report_ready` event is appended per distinct change of a
key's non-empty text content: starting a run, a repeated identical snapshot
for a report key is a complete no-op (the second loop iteration leaves the
record, the `previous_reports` dict, and the write log exactly as they were —
no event, no file write), and the snapshot sequence `{A}, {A}, {B}` produces
exactly two `report_ready` events for the key and exactly the two file writes
`A` then `B`. -/
theorem C4_report_ready_once_per_change (payload : JobCreateRequest)
    (job_id key fname A B : String) (hmem : (key, fname) ∈ REPORT_FILES)
    (hA : A.pyStrip ≠ "") (hB : B.pyStrip ≠ "") (hAB : A ≠ B) :
    runLoop (initialRunState (newJobRecord job_id payload)) emptyChunk
        [Except.ok (singleKeyChunk key A), Except.ok (singleKeyChunk key A)] =
      runLoop (initialRunState (newJobRecord job_id payload)) emptyChunk
        [Except.ok (singleKeyChunk key A)] ∧
    countReportReady key
        (runLoop (initialRunState (newJobRecord job_id payload)) emptyChunk
          [Except.ok (singleKeyChunk key A), Except.ok (singleKeyChunk key A),
           Except.ok (singleKeyChunk key B)]).1.record.events = 2 ∧
    (runLoop (initialRunState (newJobRecord job_id payload)) emptyChunk
        [Except.ok (singleKeyChunk key A), Except.ok (singleKeyChunk key A),
         Except.ok (singleKeyChunk key B)]).1.writes = [(fname, A), (fname, B)] := by
  have hgetA : (singleKeyChunk key A).get key = some (.str A) :=
    singleKeyChunk_get_self key A
  have hgetB : (singleKeyChunk key B).get key = some (.str B) :=
    singleKeyChunk_get_self key B
  have hneA : ("" : String) ≠ A := by
    intro h
    exact hA (by rw [← h]; decide)
  have h1 : processChunk (initialRunState (newJobRecord job_id payload))
      (singleKeyChunk key A) =
      { record := ({ (initialRunState (newJobRecord job_id payload)).record with
                     reports := [fname] }).append_event
                    "report_ready" (.reportReadyData key A.length),
        prev := fun k => if k = key then A else "",
        writes := [(fname, A)] } := by
    rw [processChunk_singleKey _ key fname A hmem,
        processReportKey_write _ _ key fname A hgetA hA hneA]
    rfl
  have h2 : processChunk (processChunk (initialRunState (newJobRecord job_id payload))
      (singleKeyChunk key A)) (singleKeyChunk key A) =
      processChunk (initialRunState (newJobRecord job_id payload))
        (singleKeyChunk key A) := by
    rw [h1, processChunk_singleKey _ key fname A hmem,
        processReportKey_unchanged _ _ key fname A hgetA (if_pos rfl)]
    rfl
  refine ⟨?_, ?_, ?_⟩
  · show (processChunk (processChunk (initialRunState (newJobRecord job_id payload))
        (singleKeyChunk key A)) (singleKeyChunk key A), singleKeyChunk key A,
        (none : Option String)) =
      (processChunk (initialRunState (newJobRecord job_id payload))
        (singleKeyChunk key A), singleKeyChunk key A, none)
    rw [h2]
  · show countReportReady key
      (processChunk (processChunk (processChunk
        (initialRunState (newJobRecord job_id payload)) (singleKeyChunk key A))
        (singleKeyChunk key A)) (singleKeyChunk key B)).record.events = 2
    rw [h2, h1, processChunk_singleKey _ key fname B hmem,
        processReportKey_write _ _ key fname B hgetB hB
          (fun h => hAB ((if_pos rfl).symm.trans h))]
    dsimp only [JobRecord.append_event]
    rw [if_pos (List.mem_singleton_self fname)]
    dsimp only
    have hev0 : (initialRunState (newJobRecord job_id payload)).record.events =
        [{ seq := 1, type := "status", data := .statusData "queued" none },
         { seq := 2, type := "status", data := .statusData "running" none }] := rfl
    rw [hev0]
    simp [countReportReady, List.filter_append]
  · show (processChunk (processChunk (processChunk
        (initialRunState (newJobRecord job_id payload)) (singleKeyChunk key A))
        (singleKeyChunk key A)) (singleKeyChunk key B)).writes = [(fname, A), (fname, B)]
    rw [h2, h1, processChunk_singleKey _ key fname B hmem,
        processReportKey_write _ _ key fname B hgetB hB
          (fun h => hAB ((if_pos rfl).symm.trans h))]
    rfl

theorem C4_report_ready_once_per_change_witness :
    (("market_report", "market_report.md") ∈ REPORT_FILES ∧
     ("x" : String).pyStrip ≠ "" ∧ ("y" : String).pyStrip ≠ "" ∧
     ("x" : String) ≠ "y") ∧
    countReportReady "market_report"
      (runLoop (initialRunState (newJobRecord "job1" samplePayload)) emptyChunk
        [Except.ok (singleKeyChunk "market_report" "x"),
         Except.ok (singleKeyChunk "market_report" "x"),
         Except.ok (singleKeyChunk "market_report" "y")]).1.record.events = 2 :=
  ⟨⟨by decide, by decide, by decide, by decide⟩,
   (C4_report_ready_once_per_change samplePayload "job1" "market_report"
     "market_report.md" "x" "y" (by decide) (by decide) (by decide)
     (by decide)).2.1⟩

/-! ## Sortedness of the reports listing (C9) -/

theorem append_event_reports (r : JobRecord) (ty : String) (d : EventData) :
    (r.append_event ty d).reports = r.reports := rfl

theorem update_status_reports (r : JobRecord) (s : String) (e : Option String) :
    (JobManager.update_status r s e).reports = r.reports := by
  unfold JobManager.update_status
  cases truthyStr e <;> rfl

theorem processMessages_reports (r : JobRecord) (c : Chunk) :
    (processMessages r c).reports = r.reports := by
  unfold processMessages
  cases c.messages.getLast? with
  | none => rfl
  | some m =>
      show (if m.isBaseMessage = true then
              (if m.text ≠ "" then
                r.append_event "message" (.messageData m.name (strTakeRight 2000 m.text))
              else r)
            else r).reports = r.reports
      split
      · split <;> rfl
      · rfl

theorem reportsOk_processReportKey (c : Chunk) (st : RunState) (kv : String × String)
    (h : reportsOk st.record) : reportsOk (processReportKey c st kv).record := by
  cases hc : c.get kv.1 with
  | none => rw [processReportKey_none c st kv hc]; exact h
  | some v =>
      cases v with
      | str s =>
          rw [processReportKey_str c st kv s hc]
          by_cases h1 : s.pyStrip ≠ ""
          · rw [if_pos h1]
            by_cases h2 : st.prev kv.1 ≠ s
            · rw [if_pos h2]
              by_cases h3 : kv.2 ∈ st.record.reports
              · rw [if_pos h3]
                exact h
              · rw [if_neg h3]
                constructor
                · exact List.sorted_insertionSort _ _
                · refine (List.perm_insertionSort _ _).symm.nodup ?_
                  rw [List.nodup_append]
                  exact ⟨h.2, List.nodup_singleton _, by
                    intro a ha hb
                    rw [List.mem_singleton] at hb
                    subst hb
                    exact h3 ha⟩
            · rw [if_neg h2]; exact h
          · rw [if_neg h1]; exact h
      | vnone =>
          rw [processReportKey_eq_self c st kv (by intro s h'; rw [hc] at h'; cases h')]
          exact h
      | vlist items =>
          rw [processReportKey_eq_self c st kv (by intro s h'; rw [hc] at h'; cases h')]
          exact h
      | vdict entries =>
          rw [processReportKey_eq_self c st kv (by intro s h'; rw [hc] at h'; cases h')]
          exact h
      | other r =>
          rw [processReportKey_eq_self c st kv (by intro s h'; rw [hc] at h'; cases h')]
          exact h

theorem reportsOk_foldl (c : Chunk) :
    ∀ (keys : List (String × String)) (st : RunState),
      reportsOk st.record → reportsOk ((keys.foldl (processReportKey c) st)).record := by
  intro keys
  induction keys with
  | nil => intro st h; exact h
  | cons kv rest ih =>
      intro st h
      exact ih _ (reportsOk_processReportKey c st kv h)

theorem reportsOk_processChunk (st : RunState) (c : Chunk)
    (h : reportsOk st.record) : reportsOk (processChunk st c).record := by
  unfold processChunk
  refine reportsOk_foldl c REPORT_FILES _ ?_
  show reportsOk (processMessages _ c)
  unfold reportsOk
  rw [processMessages_reports]
  exact h

theorem reportsOk_runLoop (stream : List (Except String Chunk)) :
    ∀ (st : RunState) (fs : Chunk),
      reportsOk st.record → reportsOk (runLoop st fs stream).1.record := by
  induction stream with
  | nil => intro st fs h; exact h
  | cons item rest ih =>
      intro st fs h
      cases item with
      | error msg => exact h
      | ok c => exact ih _ _ (reportsOk_processChunk st c h)

theorem dirListing_sorted (names : List String) :
    List.Sorted (· ≤ ·) (dirListing names) :=
  List.sorted_insertionSort _ _

theorem dirListing_nodup (names : List String) : (dirListing names).Nodup :=
  (List.perm_insertionSort _ _).symm.nodup (List.nodup_dedup names)

/-- **C9.** At every point of a job's lifetime — after any prefix of the
snapshot stream, and in the final record whether the run fails or succeeds —
the record's `reports` list is sorted in ascending order and free of
duplicates: the incremental update inserts a file name only when absent and
re-sorts, and the final assignment is built from a sorted, duplicate-free
directory listing. -/
theorem C9_reports_sorted_nodup (payload : JobCreateRequest)
    (job_id generated archiveDirName : String) (reportDirInit : List String)
    (stream : List (Except String Chunk)) (k : Nat) :
    (List.Sorted (· ≤ ·)
      (runLoop (initialRunState (newJobRecord job_id payload)) emptyChunk
        (stream.take k)).1.record.reports ∧
     (runLoop (initialRunState (newJobRecord job_id payload)) emptyChunk
        (stream.take k)).1.record.reports.Nodup) ∧
    (List.Sorted (· ≤ ·)
      (run_job (newJobRecord job_id payload) generated reportDirInit
        archiveDirName stream).1.reports ∧
     (run_job (newJobRecord job_id payload) generated reportDirInit
        archiveDirName stream).1.reports.Nodup) := by
  have hinit : reportsOk (initialRunState (newJobRecord job_id payload)).record :=
    ⟨List.sorted_nil, List.nodup_nil⟩
  constructor
  · exact reportsOk_runLoop _ _ _ hinit
  · rcases hL : runLoop (initialRunState (newJobRecord job_id payload)) emptyChunk stream
      with ⟨st, fs, failure⟩
    have hst : reportsOk st.record := by
      have h := reportsOk_runLoop stream
        (initialRunState (newJobRecord job_id payload)) emptyChunk hinit
      rw [hL] at h
      exact h
    cases failure with
    | some msg =>
        have hrun : (run_job (newJobRecord job_id payload) generated reportDirInit
            archiveDirName stream).1 =
            (JobManager.update_status st.record "failed" (some msg)).append_event
              "error" (.errorData msg) := by
          unfold run_job
          rw [hL]
        show List.Sorted _ _ ∧ _
        rw [hrun, append_event_reports, update_status_reports]
        exact hst
    | none =>
        have hrep : (run_job (newJobRecord job_id payload) generated reportDirInit
            archiveDirName stream).1.reports =
            (dirListing (reportDirInit ++
              ((st.writes ++ write_reports fs).map Prod.fst))).filter
              (fun n => suffixLower n == ".md") := by
          unfold run_job
          rw [hL]
          dsimp only
          rw [update_status_reports, append_event_reports]
        rw [hrep]
        constructor
        · exact List.Pairwise.sublist (List.filter_sublist _) (dirListing_sorted _)
        · exact (dirListing_nodup _).filter _

/-! ## Fetch-endpoint path handling (C6, C10) -/

theorem get_report_served (tree : FsTree) (name : String)
    (hsep : hasPathSep name = false) (h1 : fsExists tree [name] = true)
    (h2 : suffixLower name = ".md") (h3 : fsIsFile tree [name] = true) :
    get_report tree name = (.ok (fsContent tree [name]), [[name]]) := by
  unfold get_report
  simp [hsep, h1, h2, h3]

/-- **C6 (amended).** The report and artifact endpoints reject exactly the
names containing a path-separator character with a 400 before any filesystem
access; the archive endpoint (whose argument may legitimately contain
separators) rejects with a 400, before any filesystem access, exactly the
paths that resolve outside the archive root after normalization — an
absolute `file_path` replaces the base, per `pathlib` — and for every path
resolving inside the root the response is never a 400 and the endpoint
proceeds to the filesystem at the resolved relative path.  A name containing
`..` but no separator is not rejected with a 400 (see the counterexample). -/
theorem C6_separator_and_traversal_rejection (tree : FsTree) (name : String)
    (root : List String) (p : String) :
    (hasPathSep name = true →
      get_report tree name = (.badRequest "Invalid report name", []) ∧
      get_artifact tree name = (.badRequest "Invalid artifact name", [])) ∧
    (root.isPrefixOf (archiveTarget root p) = false →
      get_archive_file root tree p = (.badRequest "Invalid file path", [])) ∧
    (root.isPrefixOf (archiveTarget root p) = true →
      (∀ d, (get_archive_file root tree p).1 ≠ HttpResponse.badRequest d) ∧
      (get_archive_file root tree p).2 =
        [(archiveTarget root p).drop root.length]) := by
  refine ⟨?_, ?_, ?_⟩
  · intro h
    constructor
    · unfold get_report
      rw [if_pos h]
    · unfold get_artifact
      rw [if_pos h]
  · intro h
    unfold get_archive_file
    rw [if_pos (by rw [h]; rfl)]
  · intro h
    unfold get_archive_file
    rw [if_neg (by rw [h]; simp)]
    dsimp only
    constructor
    · intro d
      split
      · simp
      · split
        · simp
        · simp
    · split
      · rfl
      · split
        · rfl
        · rfl

theorem C6_separator_and_traversal_rejection_witness :
    hasPathSep "a/b.md" = true ∧
    get_report [] "a/b.md" = (.badRequest "Invalid report name", []) ∧
    (["arch"] : List String).isPrefixOf (archiveTarget ["arch"] "../secret") = false ∧
    get_archive_file ["arch"] [] "../secret" = (.badRequest "Invalid file path", []) ∧
    (["arch"] : List String).isPrefixOf (archiveTarget ["arch"] "/etc/secret") = false ∧
    get_archive_file ["arch"] [] "/etc/secret" = (.badRequest "Invalid file path", []) ∧
    (["arch"] : List String).isPrefixOf (archiveTarget ["arch"] "sub/report.md") = true ∧
    (∀ d, (get_archive_file ["arch"] [] "sub/report.md").1 ≠ HttpResponse.badRequest d) :=
  ⟨by decide,
   ((C6_separator_and_traversal_rejection [] "a/b.md" ["arch"] "../secret").1
     (by decide)).1,
   by decide,
   (C6_separator_and_traversal_rejection [] "a/b.md" ["arch"] "../secret").2.1
     (by decide),
   by decide,
   (C6_separator_and_traversal_rejection [] "a/b.md" ["arch"] "/etc/secret").2.1
     (by decide),
   by decide,
   ((C6_separator_and_traversal_rejection [] "a/b.md" ["arch"] "sub/report.md").2.2
     (by decide)).1⟩

/-- **C6 counterexample.** The claim requires every name containing `..` to
be rejected with a 400-equivalent and never reach the filesystem; but the
report endpoint only tests for separators, so the name `..` passes the check,
the filesystem is probed (`report_path.exists()` / `is_file()` run on
`report_dir / ".."`), and the response is a 404, not a 400. -/
theorem C6_counterexample :
    get_report [] ".." = (.notFound "Report not found", [[".."]]) ∧
    (∀ d, (get_report [] "..").1 ≠ HttpResponse.badRequest d) ∧
    (get_report [] "..").2 ≠ [] := by
  refine ⟨rfl, ?_, by decide⟩
  intro d h
  have h0 : (get_report [] "..").1 = .notFound "Report not found" := rfl
  rw [h0] at h
  simp at h

/-- **C10.** For a separator-free name, the report endpoint serves content
iff the name exists directly under the job's report directory, is a regular
file, and has the `.md` suffix (case-insensitively, as the code lowercases);
any existing file with another suffix yields a 404.  Symmetrically, whenever
the artifact endpoint serves a file — through the direct path or the
recursive fallback — that file's suffix is `.png` or `.csv`. -/
theorem C10_only_md_reports_and_png_csv_artifacts (tree : FsTree) (name : String)
    (hsep : hasPathSep name = false) :
    ((∃ body, (get_report tree name).1 = HttpResponse.ok body) ↔
      (fsExists tree [name] = true ∧ fsIsFile tree [name] = true ∧
       suffixLower name = ".md")) ∧
    (∀ path, (get_artifact tree name).1 = HttpResponse.okFile path →
      artifactSuffixOk ((path.getLast?).getD "") = true) := by
  constructor
  · constructor
    · rintro ⟨body, hb⟩
      by_cases h1 : fsExists tree [name] = true
      · by_cases h2 : suffixLower name = ".md"
        · by_cases h3 : fsIsFile tree [name] = true
          · exact ⟨h1, h3, h2⟩
          · rw [Bool.not_eq_true] at h3
            exfalso
            unfold get_report at hb
            simp [hsep, h1, h2, h3] at hb
        · exfalso
          unfold get_report at hb
          simp [hsep, h1, h2] at hb
      · rw [Bool.not_eq_true] at h1
        exfalso
        unfold get_report at hb
        simp [hsep, h1] at hb
    · rintro ⟨h1, h3, h2⟩
      exact ⟨fsContent tree [name],
        by rw [get_report_served tree name hsep h1 h2 h3]⟩
  · intro path hb
    unfold get_artifact at hb
    rw [if_neg (by simp [hsep])] at hb
    by_cases hcond : ((!fsExists tree [name]) || (!artifactSuffixOk name) ||
        (!fsIsFile tree [name])) = true
    · rw [if_pos hcond] at hb
      rcases hfilter : tree.filter (fun e =>
          e.isFile && e.path.getLast? == some name && artifactSuffixOk name)
        with _ | ⟨e, es⟩
      · rw [hfilter] at hb
        simp at hb
      · rw [hfilter] at hb
        simp only [List.head?_cons] at hb
        have he : e ∈ tree.filter (fun e =>
            e.isFile && e.path.getLast? == some name && artifactSuffixOk name) := by
          rw [hfilter]
          exact List.mem_cons_self _ _
        have hpred := (List.mem_filter.mp he).2
        simp only [Bool.and_eq_true, beq_iff_eq] at hpred
        have hpath : e.path = path := by
          simpa using hb
        rw [← hpath, hpred.1.2]
        simpa using hpred.2
    · rw [if_neg hcond] at hb
      simp only [Bool.or_eq_true, Bool.not_eq_true'] at hcond
      push_neg at hcond
      have hsuff : artifactSuffixOk name = true := by
        rcases Bool.eq_false_or_eq_true (artifactSuffixOk name) with h | h
        · exact h
        · exact absurd h hcond.1.2
      have hpath : [name] = path := by
        simpa using hb
      rw [← hpath]
      simpa using hsuff

theorem C10_only_md_reports_and_png_csv_artifacts_witness :
    hasPathSep "a.md" = false ∧
    ((∃ body, (get_report [{ path := ["a.md"], isFile := true, content := "hi" }]
        "a.md").1 = HttpResponse.ok body) ↔
      (fsExists [{ path := ["a.md"], isFile := true, content := "hi" }] ["a.md"] = true ∧
       fsIsFile [{ path := ["a.md"], isFile := true, content := "hi" }] ["a.md"] = true ∧
       suffixLower "a.md" = ".md")) :=
  ⟨by decide,
   (C10_only_md_reports_and_png_csv_artifacts
     [{ path := ["a.md"], isFile := true, content := "hi" }] "a.md" (by decide)).1⟩

/-! ## Archive builder sections (C7) -/

theorem takeWhile_append_stop {α : Type} (p : α → Bool) :
    ∀ (l₁ l₂ : List α), (∃ c ∈ l₁, p c = false) →
      (l₁ ++ l₂).takeWhile p = l₁.takeWhile p := by
  intro l₁
  induction l₁ with
  | nil =>
      intro l₂ h
      rcases h with ⟨c, hc, _⟩
      cases hc
  | cons a l ih =>
      intro l₂ h
      rw [List.cons_append]
      by_cases hp : p a = true
      · rw [List.takeWhile_cons_of_pos hp, List.takeWhile_cons_of_pos hp]
        rcases h with ⟨c, hc, hcp⟩
        rcases List.mem_cons.mp hc with rfl | hc'
        · rw [hp] at hcp
          cases hcp
        · exact congrArg _ (ih l₂ ⟨c, hc', hcp⟩)
      · rw [List.takeWhile_cons_of_neg hp, List.takeWhile_cons_of_neg hp]

theorem firstLine_append (pre body : String) (h : '\n' ∈ pre.data) :
    firstLine (pre ++ body) = firstLine pre := by
  unfold firstLine
  rw [String.data_append,
      takeWhile_append_stop _ pre.data body.data ⟨'\n', h, by decide⟩]

theorem sectionEntries_foldl_writes (get : String → Option ChunkValue) (dir : String) :
    ∀ (entries : List (String × String × String))
      (acc : List (String × String) × List (String × String)),
      (∀ w ∈ acc.1, (w.2).pyStrip ≠ "") →
      ∀ w ∈ (entries.foldl (fun acc e =>
          let content := coerceText (get e.2.1)
          if content.pyStrip ≠ "" then
            (acc.1 ++ [(dir ++ "/" ++ e.2.2, content)], acc.2 ++ [(e.1, content)])
          else acc) acc).1, (w.2).pyStrip ≠ "" := by
  intro entries
  induction entries with
  | nil => intro acc h; exact h
  | cons e rest ih =>
      intro acc h
      rw [List.foldl_cons]
      refine ih _ ?_
      intro w hw
      dsimp only at hw
      by_cases hc : (coerceText (get e.2.1)).pyStrip ≠ ""
      · rw [if_pos hc] at hw
        rcases List.mem_append.mp hw with h' | h'
        · exact h w h'
        · simp only [List.mem_singleton] at h'
          rw [h']
          exact hc
      · rw [if_neg hc] at hw
        exact h w hw

theorem sectionEntries_writes_nonblank (get : String → Option ChunkValue)
    (dir : String) (entries : List (String × String × String)) :
    ∀ w ∈ (sectionEntries get dir entries).1, (w.2).pyStrip ≠ "" := by
  unfold sectionEntries
  exact sectionEntries_foldl_writes get dir entries ([], [])
    (by intro w hw; simp at hw)

theorem sectionEntries_foldl_parts (get : String → Option ChunkValue) (dir : String) :
    ∀ (entries : List (String × String × String))
      (acc : List (String × String) × List (String × String)),
      ((entries.foldl (fun acc e =>
          let content := coerceText (get e.2.1)
          if content.pyStrip ≠ "" then
            (acc.1 ++ [(dir ++ "/" ++ e.2.2, content)], acc.2 ++ [(e.1, content)])
          else acc) acc).2).isEmpty =
        (acc.2.isEmpty && !(keysPopulated get entries)) := by
  intro entries
  induction entries with
  | nil =>
      intro acc
      simp [keysPopulated]
  | cons e rest ih =>
      intro acc
      rw [List.foldl_cons]
      dsimp only
      by_cases hc : (coerceText (get e.2.1)).pyStrip ≠ ""
      · rw [if_pos hc, ih]
        have h2 : (acc.2 ++ [(e.1, coerceText (get e.2.1))]).isEmpty = false := by
          cases acc.2 <;> rfl
        have h3 : keysPopulated get (e :: rest) = true := by
          simp only [keysPopulated, List.any_cons, Bool.or_eq_true, decide_eq_true_iff]
          exact Or.inl hc
        rw [h3]
        dsimp only
        rw [h2]
        simp
      · rw [if_neg hc, ih]
        have hc' : (coerceText (get e.2.1)).pyStrip = "" := not_ne_iff.mp hc
        have h3 : keysPopulated get (e :: rest) = keysPopulated get rest := by
          simp [keysPopulated, List.any_cons, hc']
        rw [h3]

theorem sectionEntries_isEmpty (get : String → Option ChunkValue) (dir : String)
    (entries : List (String × String × String)) :
    ((sectionEntries get dir entries).2).isEmpty = !(keysPopulated get entries) := by
  unfold sectionEntries
  rw [sectionEntries_foldl_parts get dir entries ([], [])]
  rfl

theorem cond_flip {α : Type} (b : Bool) (x : List α) :
    (if (!b) = true then ([] : List α) else x) = (if b = true then x else []) := by
  cases b <;> rfl

theorem ite_decide_list {α : Type} (p : Prop) [Decidable p] (x : List α) :
    (if decide p = true then x else []) = (if p then x else []) := by
  by_cases h : p <;> simp [h]

theorem artifacts_copies_isEmpty (names : List String) :
    ((names.filter (fun n => suffixLower n == ".png" || suffixLower n == ".csv")).map
      (fun n => "6_artifacts/" ++ n)).isEmpty = !(artifactsPopulated names) := by
  induction names with
  | nil => rfl
  | cons n rest ih =>
      by_cases h : (suffixLower n == ".png" || suffixLower n == ".csv") = true
      · simp [List.filter_cons, h, artifactsPopulated, List.any_cons, artifactSuffixOk]
      · simp only [List.filter_cons, h, if_false, Bool.false_eq_true]
        rw [ih]
        simp only [artifactsPopulated, List.any_cons, artifactSuffixOk] at *
        rw [Bool.not_eq_true] at h
        simp [h]

theorem write_archive_writes_nonblank (ticker trade_date generated : String)
    (final_state : Chunk) (reportDirNames : List String) :
    ∀ w ∈ (write_archive ticker trade_date generated final_state
        reportDirNames).sectionWrites, (w.2).pyStrip ≠ "" := by
  unfold write_archive
  dsimp only
  intro w hw
  simp only [List.mem_append] at hw
  have htrade : ∀ s : String,
      w ∈ (if s.pyStrip ≠ "" then [("3_trading/trader.md", s)] else []) →
      (w.2).pyStrip ≠ "" := by
    intro s hw'
    by_cases hs : s.pyStrip ≠ ""
    · rw [if_pos hs] at hw'
      simp only [List.mem_singleton] at hw'
      rw [hw']
      exact hs
    · rw [if_neg hs] at hw'
      simp at hw'
  have hjudge : ∀ s : String,
      w ∈ (if s.pyStrip ≠ "" then [("5_portfolio/decision.md", s)] else []) →
      (w.2).pyStrip ≠ "" := by
    intro s hw'
    by_cases hs : s.pyStrip ≠ ""
    · rw [if_pos hs] at hw'
      simp only [List.mem_singleton] at hw'
      rw [hw']
      exact hs
    · rw [if_neg hs] at hw'
      simp at hw'
  cases hres : getDictOr (final_state.get "investment_debate_state") with
  | none =>
      cases hrisk : getDictOr (final_state.get "risk_debate_state") with
      | none =>
          rw [hres, hrisk] at hw
          rcases hw with ((((hw | hw) | hw) | hw) | hw)
          · exact sectionEntries_writes_nonblank _ _ _ w hw
          · simp at hw
          · exact htrade _ hw
          · simp at hw
          · exact hjudge _ hw
      | some d' =>
          rw [hres, hrisk] at hw
          rcases hw with ((((hw | hw) | hw) | hw) | hw)
          · exact sectionEntries_writes_nonblank _ _ _ w hw
          · simp at hw
          · exact htrade _ hw
          · exact sectionEntries_writes_nonblank _ _ _ w hw
          · exact hjudge _ hw
  | some d =>
      cases hrisk : getDictOr (final_state.get "risk_debate_state") with
      | none =>
          rw [hres, hrisk] at hw
          rcases hw with ((((hw | hw) | hw) | hw) | hw)
          · exact sectionEntries_writes_nonblank _ _ _ w hw
          · exact sectionEntries_writes_nonblank _ _ _ w hw
          · exact htrade _ hw
          · simp at hw
          · exact hjudge _ hw
      | some d' =>
          rw [hres, hrisk] at hw
          rcases hw with ((((hw | hw) | hw) | hw) | hw)
          · exact sectionEntries_writes_nonblank _ _ _ w hw
          · exact sectionEntries_writes_nonblank _ _ _ w hw
          · exact htrade _ hw
          · exact sectionEntries_writes_nonblank _ _ _ w hw
          · exact hjudge _ hw

theorem firstLine_secI :
    firstLine "## I. Analyst Team Reports\n\n" = "## I. Analyst Team Reports" := by decide

theorem firstLine_secII :
    firstLine "## II. Research Team Decision\n\n" = "## II. Research Team Decision" := by decide

theorem firstLine_secIII :
    firstLine "## III. Trading Team Plan\n\n### Trader\n" = "## III. Trading Team Plan" := by
  decide

theorem firstLine_secIV :
    firstLine "## IV. Risk Management Team Decision\n\n" =
      "## IV. Risk Management Team Decision" := by decide

theorem firstLine_secV :
    firstLine "## V. Portfolio Manager Decision\n\n### Portfolio Manager\n" =
      "## V. Portfolio Manager Decision" := by decide

theorem firstLine_secVI :
    firstLine "## VI. Artifacts\n\nSaved under `6_artifacts/`." = "## VI. Artifacts" := by
  decide

theorem write_archive_dirs (ticker trade_date generated : String)
    (final_state : Chunk) (reportDirNames : List String) :
    (write_archive ticker trade_date generated final_state reportDirNames).dirs =
      (if analystsPopulated final_state = true then ["1_analysts"] else []) ++
      (if researchPopulated final_state = true then ["2_research"] else []) ++
      (if tradingPopulated final_state = true then ["3_trading"] else []) ++
      (if riskPopulated final_state = true then ["4_risk"] else []) ++
      (if portfolioPopulated final_state = true then ["5_portfolio"] else []) ++
      (if artifactsPopulated reportDirNames = true then ["6_artifacts"] else []) := by
  unfold write_archive
  dsimp only
  cases hres : getDictOr (final_state.get "investment_debate_state") with
  | none =>
      cases hrisk : getDictOr (final_state.get "risk_debate_state") with
      | none =>
          simp only [sectionEntries_isEmpty, cond_flip, artifacts_copies_isEmpty]
          simp only [analystsPopulated, researchPopulated, tradingPopulated,
            riskPopulated, portfolioPopulated, hres, hrisk, decide_eq_true_eq]
          simp [show ("" : String).pyStrip = "" from rfl]
      | some d' =>
          simp only [sectionEntries_isEmpty, cond_flip, artifacts_copies_isEmpty]
          simp only [analystsPopulated, researchPopulated, tradingPopulated,
            riskPopulated, portfolioPopulated, hres, hrisk, decide_eq_true_eq]
          simp
  | some d =>
      cases hrisk : getDictOr (final_state.get "risk_debate_state") with
      | none =>
          simp only [sectionEntries_isEmpty, cond_flip, artifacts_copies_isEmpty]
          simp only [analystsPopulated, researchPopulated, tradingPopulated,
            riskPopulated, portfolioPopulated, hres, hrisk, decide_eq_true_eq]
          simp [show ("" : String).pyStrip = "" from rfl]
      | some d' =>
          simp only [sectionEntries_isEmpty, cond_flip, artifacts_copies_isEmpty]
          simp only [analystsPopulated, researchPopulated, tradingPopulated,
            riskPopulated, portfolioPopulated, hres, hrisk, decide_eq_true_eq]

theorem write_archive_sections (ticker trade_date generated : String)
    (final_state : Chunk) (reportDirNames : List String) :
    ((write_archive ticker trade_date generated final_state
        reportDirNames).sections).map firstLine =
      (if analystsPopulated final_state = true then
        ["## I. Analyst Team Reports"] else []) ++
      (if researchPopulated final_state = true then
        ["## II. Research Team Decision"] else []) ++
      (if tradingPopulated final_state = true then
        ["## III. Trading Team Plan"] else []) ++
      (if riskPopulated final_state = true then
        ["## IV. Risk Management Team Decision"] else []) ++
      (if portfolioPopulated final_state = true then
        ["## V. Portfolio Manager Decision"] else []) ++
      (if artifactsPopulated reportDirNames = true then
        ["## VI. Artifacts"] else []) := by
  unfold write_archive
  dsimp only
  cases hres : getDictOr (final_state.get "investment_debate_state") with
  | none =>
      cases hrisk : getDictOr (final_state.get "risk_debate_state") with
      | none =>
          simp only [List.map_append, apply_ite (List.map firstLine),
            List.map_cons, List.map_nil]
          rw [firstLine_append "## I. Analyst Team Reports\n\n" _ (by decide),
              firstLine_append "## III. Trading Team Plan\n\n### Trader\n" _ (by decide)]
          simp only [firstLine_secI, firstLine_secIII, firstLine_secVI,
            sectionEntries_isEmpty, cond_flip, artifacts_copies_isEmpty]
          simp only [analystsPopulated, researchPopulated, tradingPopulated,
            riskPopulated, portfolioPopulated, hres, hrisk, decide_eq_true_eq]
          simp [show ("" : String).pyStrip = "" from rfl]
      | some d' =>
          simp only [List.map_append, apply_ite (List.map firstLine),
            List.map_cons, List.map_nil]
          rw [firstLine_append "## I. Analyst Team Reports\n\n" _ (by decide),
              firstLine_append "## III. Trading Team Plan\n\n### Trader\n" _ (by decide),
              firstLine_append "## IV. Risk Management Team Decision\n\n" _ (by decide),
              firstLine_append
                "## V. Portfolio Manager Decision\n\n### Portfolio Manager\n" _ (by decide)]
          simp only [firstLine_secI, firstLine_secIII, firstLine_secIV,
            firstLine_secV, firstLine_secVI,
            sectionEntries_isEmpty, cond_flip, artifacts_copies_isEmpty]
          simp only [analystsPopulated, researchPopulated, tradingPopulated,
            riskPopulated, portfolioPopulated, hres, hrisk, decide_eq_true_eq]
          simp
  | some d =>
      cases hrisk : getDictOr (final_state.get "risk_debate_state") with
      | none =>
          simp only [List.map_append, apply_ite (List.map firstLine),
            List.map_cons, List.map_nil]
          rw [firstLine_append "## I. Analyst Team Reports\n\n" _ (by decide),
              firstLine_append "## II. Research Team Decision\n\n" _ (by decide),
              firstLine_append "## III. Trading Team Plan\n\n### Trader\n" _ (by decide)]
          simp only [firstLine_secI, firstLine_secII, firstLine_secIII, firstLine_secVI,
            sectionEntries_isEmpty, cond_flip, artifacts_copies_isEmpty]
          simp only [analystsPopulated, researchPopulated, tradingPopulated,
            riskPopulated, portfolioPopulated, hres, hrisk, decide_eq_true_eq]
          simp [show ("" : String).pyStrip = "" from rfl]
      | some d' =>
          simp only [List.map_append, apply_ite (List.map firstLine),
            List.map_cons, List.map_nil]
          rw [firstLine_append "## I. Analyst Team Reports\n\n" _ (by decide),
              firstLine_append "## II. Research Team Decision\n\n" _ (by decide),
              firstLine_append "## III. Trading Team Plan\n\n### Trader\n" _ (by decide),
              firstLine_append "## IV. Risk Management Team Decision\n\n" _ (by decide),
              firstLine_append
                "## V. Portfolio Manager Decision\n\n### Portfolio Manager\n" _ (by decide)]
          simp only [firstLine_secI, firstLine_secII, firstLine_secIII,
            firstLine_secIV, firstLine_secV, firstLine_secVI,
            sectionEntries_isEmpty, cond_flip, artifacts_copies_isEmpty]
          simp only [analystsPopulated, researchPopulated, tradingPopulated,
            riskPopulated, portfolioPopulated, hres, hrisk, decide_eq_true_eq]

/-- **C7.** For every final snapshot handed to the archive builder: every file
written into a section of the bundle carries non-blank text (no file is ever
created for an output key whose coerced text is empty or whitespace-only), and
a section's subdirectory is created, and its header appears in the summary
document, exactly when at least one of that section's keys is populated —
sections with no populated keys are omitted entirely.  (`firstLine` extracts
each included section block's header line.) -/
theorem C7_archive_skips_blank_keys_and_empty_sections
    (ticker trade_date generated : String) (final_state : Chunk)
    (reportDirNames : List String) :
    (∀ w ∈ (write_archive ticker trade_date generated final_state
        reportDirNames).sectionWrites, (w.2).pyStrip ≠ "") ∧
    ((write_archive ticker trade_date generated final_state reportDirNames).dirs =
      (if analystsPopulated final_state = true then ["1_analysts"] else []) ++
      (if researchPopulated final_state = true then ["2_research"] else []) ++
      (if tradingPopulated final_state = true then ["3_trading"] else []) ++
      (if riskPopulated final_state = true then ["4_risk"] else []) ++
      (if portfolioPopulated final_state = true then ["5_portfolio"] else []) ++
      (if artifactsPopulated reportDirNames = true then ["6_artifacts"] else [])) ∧
    (((write_archive ticker trade_date generated final_state
        reportDirNames).sections).map firstLine =
      (if analystsPopulated final_state = true then
        ["## I. Analyst Team Reports"] else []) ++
      (if researchPopulated final_state = true then
        ["## II. Research Team Decision"] else []) ++
      (if tradingPopulated final_state = true then
        ["## III. Trading Team Plan"] else []) ++
      (if riskPopulated final_state = true then
        ["## IV. Risk Management Team Decision"] else []) ++
      (if portfolioPopulated final_state = true then
        ["## V. Portfolio Manager Decision"] else []) ++
      (if artifactsPopulated reportDirNames = true then
        ["## VI. Artifacts"] else [])) :=
  ⟨write_archive_writes_nonblank ticker trade_date generated final_state reportDirNames,
   write_archive_dirs ticker trade_date generated final_state reportDirNames,
   write_archive_sections ticker trade_date generated final_state reportDirNames⟩

theorem C7_archive_skips_blank_keys_and_empty_sections_witness :
    (∀ w ∈ (write_archive "AAPL" "2025-01-02" "ts" emptyChunk []).sectionWrites,
      (w.2).pyStrip ≠ "") ∧
    (write_archive "AAPL" "2025-01-02" "ts" emptyChunk []).dirs =
      (if analystsPopulated emptyChunk = true then ["1_analysts"] else []) ++
      (if researchPopulated emptyChunk = true then ["2_research"] else []) ++
      (if tradingPopulated emptyChunk = true then ["3_trading"] else []) ++
      (if riskPopulated emptyChunk = true then ["4_risk"] else []) ++
      (if portfolioPopulated emptyChunk = true then ["5_portfolio"] else []) ++
      (if artifactsPopulated [] = true then ["6_artifacts"] else []) :=
  ⟨(C7_archive_skips_blank_keys_and_empty_sections "AAPL" "2025-01-02" "ts"
      emptyChunk []).1,
   (C7_archive_skips_blank_keys_and_empty_sections "AAPL" "2025-01-02" "ts"
      emptyChunk []).2.1⟩
